import Mathlib

/-!
Verification of the lexical analyzer in `src/scanner.c` / `src/scanner.h`.

The C scanner works over a NUL-terminated character buffer through a global
`Scanner` struct holding two cursor pointers (`start`, `current`) and a line
counter.  We embed it shallowly: the buffer is a `List Char`, the two pointers
become natural-number offsets into that list, and reading a character at an
offset past the end of the list yields the NUL character, exactly as reading
the C string's terminator does.  Every C helper that returns a `Token` while
mutating the global scanner becomes a function `Scanner → Token × Scanner`.

A C `Token` carries a `start` pointer, a `length` and a `line`; the pointer
points either into the source buffer (ordinary tokens, `makeToken`) or at a
diagnostic message (`errorToken`).  We model the pointed-at character range
directly as the list `lexeme` (so `length` is `lexeme.length`).

The C `while` loops are embedded as fuel-indexed structural recursions; each
wrapper supplies `src.length + 1 - current` fuel, which is an upper bound on
the number of iterations because every loop body advances `current` by one
and every loop guard fails on the NUL character at/after the end of buffer.
-/

/-- The NUL character, the C string terminator. -/
def nulChar : Char := '\x00'

/-- Reading the buffer at offset `i`: the character there, or NUL at/after the
end of the buffer (the C string terminator). -/
def charAt (l : List Char) (i : Nat) : Char := l.getD i nulChar

/-- The token-type enumeration of `src/scanner.h` (all 79 members). -/
inductive TokenType where
  | TOKEN_LEFT_PAREN | TOKEN_RIGHT_PAREN | TOKEN_LEFT_BRACKET | TOKEN_RIGHT_BRACKET
  | TOKEN_LEFT_BRACE | TOKEN_RIGHT_BRACE | TOKEN_COMMA | TOKEN_DOT | TOKEN_SEMICOLON | TOKEN_TILDE
  | TOKEN_PLUS | TOKEN_PLUS_PLUS | TOKEN_PLUS_EQUAL
  | TOKEN_MINUS | TOKEN_MINUS_MINUS | TOKEN_MINUS_EQUAL | TOKEN_MINUS_GREATER
  | TOKEN_STAR | TOKEN_STAR_EQUAL | TOKEN_SLASH | TOKEN_SLASH_EQUAL
  | TOKEN_PERCENT | TOKEN_PERCENT_EQUAL
  | TOKEN_AMPER | TOKEN_AMPER_EQUAL | TOKEN_AMPER_AMPER
  | TOKEN_PIPE | TOKEN_PIPE_EQUAL | TOKEN_PIPE_PIPE
  | TOKEN_HAT | TOKEN_HAT_EQUAL
  | TOKEN_EQUAL | TOKEN_EQUAL_EQUAL | TOKEN_BANG | TOKEN_BANG_EQUAL
  | TOKEN_LESS | TOKEN_LESS_EQUAL | TOKEN_LESS_LESS
  | TOKEN_GREATER | TOKEN_GREATER_EQUAL | TOKEN_GREATER_GREATER
  | TOKEN_IDENTIFIER | TOKEN_CHARACTER | TOKEN_STRING | TOKEN_NUMBER
  | TOKEN_SIGNED | TOKEN_UNSIGNED
  | TOKEN_CHAR | TOKEN_SHORT | TOKEN_INT | TOKEN_LONG
  | TOKEN_FLOAT | TOKEN_DOUBLE
  | TOKEN_STRUCT | TOKEN_UNION | TOKEN_ENUM | TOKEN_VOID
  | TOKEN_IF | TOKEN_ELSE | TOKEN_SWITCH | TOKEN_CASE | TOKEN_DEFAULT
  | TOKEN_WHILE | TOKEN_DO | TOKEN_FOR
  | TOKEN_BREAK | TOKEN_CONTINUE | TOKEN_RETURN | TOKEN_GOTO
  | TOKEN_CONST | TOKEN_SIZEOF | TOKEN_TYPEDEF
  | TOKEN_ERROR | TOKEN_EOF
  deriving DecidableEq, Repr

open TokenType

/-- The `Token` struct: `start`/`length` (a pointer into the source buffer for
ordinary tokens, or at a diagnostic message for error tokens, plus a length)
are modeled as the pointed-at character list `lexeme`. -/
structure Token where
  type : TokenType
  lexeme : List Char
  line : Nat
  deriving DecidableEq, Repr

/-- The length field of a token: the length of the character range it spans. -/
def Token.length (t : Token) : Nat := t.lexeme.length

/-- The `Scanner` struct: the source buffer plus the `start` and `current`
pointers (as offsets) and the line counter. -/
structure Scanner where
  src : List Char
  start : Nat
  current : Nat
  line : Nat
  deriving DecidableEq, Repr

/-- `initScanner`: both pointers at the start of the buffer, line 1. -/
def initScanner (source : List Char) : Scanner :=
  { src := source, start := 0, current := 0, line := 1 }

/-- `isAlpha` from scanner.c: letter or underscore. -/
def isAlpha (c : Char) : Bool :=
  (decide ('a' ≤ c) && decide (c ≤ 'z')) ||
  (decide ('A' ≤ c) && decide (c ≤ 'Z')) ||
  (c == '_')

/-- `isDigit` from scanner.c. -/
def isDigit (c : Char) : Bool :=
  decide ('0' ≤ c) && decide (c ≤ '9')

/-- `peek`: the character under `current`. -/
def peekS (s : Scanner) : Char := charAt s.src s.current

/-- `isAtEnd`: `*scanner.current == '\0'`. -/
def isAtEndS (s : Scanner) : Bool := peekS s == nulChar

/-- `advance` moves `current` one character forward (the C function also
returns the character that was under the cursor; call sites here read it with
`peekS` first). -/
def advanceS (s : Scanner) : Scanner := { s with current := s.current + 1 }

/-- `peekNext`: one character of lookahead past `current`. -/
def peekNextS (s : Scanner) : Char :=
  if isAtEndS s then nulChar else charAt s.src (s.current + 1)

/-- `match(expected)`: consume the current character iff it equals `expected`
(and the buffer has not ended); returns whether it matched. -/
def matchS (expected : Char) (s : Scanner) : Bool × Scanner :=
  if isAtEndS s then (false, s)
  else if peekS s ≠ expected then (false, s)
  else (true, { s with current := s.current + 1 })

/-- The character range `[a, b)` of the buffer (pointer difference slice). -/
def sliceS (l : List Char) (a b : Nat) : List Char := (l.drop a).take (b - a)

/-- `makeToken`: type, the span from `start` to `current`, and the line. -/
def makeTokenS (t : TokenType) (s : Scanner) : Token :=
  { type := t, lexeme := sliceS s.src s.start s.current, line := s.line }

/-- `errorToken`: an ERROR token whose span is the diagnostic message. -/
def errorTokenS (msg : List Char) (s : Scanner) : Token :=
  { type := TOKEN_ERROR, lexeme := msg, line := s.line }

/-- The inner loop of the line-comment case of `skipWhitespace`:
`while (peek() != '\n' && !isAtEnd()) advance();`, as a fueled recursion. -/
def skipCommentF : Nat → Scanner → Scanner
  | 0, s => s
  | fuel + 1, s =>
    if peekS s ≠ '\n' ∧ ¬ (isAtEndS s = true) then skipCommentF fuel (advanceS s) else s

/-- `skipWhitespace`, as a fueled recursion.  The four whitespace cases
(space, carriage return, tab, newline) all simply `advance()` — the source
contains no increment of `scanner.line` anywhere, so the newline case is
identical to the others.  A `/` followed by a second `/` consumes a line
comment and loops; any other character ends the loop. -/
def skipWhitespaceF : Nat → Scanner → Scanner
  | 0, s => s
  | fuel + 1, s =>
    let c := peekS s
    if c = ' ' ∨ c = '\r' ∨ c = '\t' ∨ c = '\n' then
      skipWhitespaceF fuel (advanceS s)
    else if c = '/' then
      if peekNextS s = '/' then
        skipWhitespaceF fuel (skipCommentF (s.src.length + 1 - s.current) s)
      else s
    else s

/-- `skipWhitespace` with sufficient fuel. -/
def skipWhitespaceS (s : Scanner) : Scanner :=
  skipWhitespaceF (s.src.length + 1 - s.current) s

/-- The shape `while (pred(peek())) advance();` shared verbatim by the
identifier loop and the two digit loops of scanner.c, as a fueled recursion. -/
def scanLoopF (p : Char → Bool) : Nat → Scanner → Scanner
  | 0, s => s
  | fuel + 1, s => if p (peekS s) then scanLoopF p fuel (advanceS s) else s

/-- The identifier body loop: `while (isAlpha(peek()) || isDigit(peek()))`. -/
def identLoopW (s : Scanner) : Scanner :=
  scanLoopF (fun c => isAlpha c || isDigit c) (s.src.length + 1 - s.current) s

/-- The digit run loop: `while (isDigit(peek()))`. -/
def digitLoopW (s : Scanner) : Scanner :=
  scanLoopF isDigit (s.src.length + 1 - s.current) s

/-- `checkKeyword(start, length, rest, type)`: keyword `type` iff the lexeme
has exactly `start + length` characters and the `length` characters from
offset `start` equal `rest` (the `memcmp`); otherwise `TOKEN_IDENTIFIER`.
The lexeme (the range `scanner.start ..  scanner.current`) is passed as the
list `lex`. -/
def checkKeywordAux (start length : Nat) (rest : List Char) (ty : TokenType)
    (lex : List Char) : TokenType :=
  if lex.length = start + length ∧ (lex.drop start).take length = rest then ty
  else TOKEN_IDENTIFIER

/-- `identifierType()`: the nested switch/if decision tree over the lexeme's
characters (`scanner.start[i]` is `lex.getD i nulChar`, and
`scanner.current - scanner.start` is `lex.length`; all character reads in the
C function are guarded to lie inside that range). -/
def identifierTypeAux (lex : List Char) : TokenType :=
  let len := lex.length
  if lex.getD 0 nulChar = 'b' then checkKeywordAux 1 4 (("reak").toList) TOKEN_BREAK lex
  else if lex.getD 0 nulChar = 'c' then
    if 1 < len then
      if lex.getD 1 nulChar = 'a' then checkKeywordAux 2 2 (("se").toList) TOKEN_CASE lex
      else if lex.getD 1 nulChar = 'h' then checkKeywordAux 2 2 (("ar").toList) TOKEN_CHAR lex
      else if lex.getD 1 nulChar = 'o' then
        if 3 < len ∧ lex.getD 2 nulChar = 'n' then
          if lex.getD 3 nulChar = 's' then checkKeywordAux 4 1 (("t").toList) TOKEN_CONST lex
          else if lex.getD 3 nulChar = 't' then checkKeywordAux 4 4 (("inue").toList) TOKEN_CONTINUE lex
          else TOKEN_IDENTIFIER
        else TOKEN_IDENTIFIER
      else TOKEN_IDENTIFIER
    else TOKEN_IDENTIFIER
  else if lex.getD 0 nulChar = 'd' then
    if 1 < len then
      if lex.getD 1 nulChar = 'e' then checkKeywordAux 2 5 (("fault").toList) TOKEN_DEFAULT lex
      else if lex.getD 1 nulChar = 'o' then
        if len = 2 then TOKEN_DO else checkKeywordAux 2 4 (("uble").toList) TOKEN_DOUBLE lex
      else TOKEN_IDENTIFIER
    else TOKEN_IDENTIFIER
  else if lex.getD 0 nulChar = 'e' then
    if 1 < len then
      if lex.getD 1 nulChar = 'l' then checkKeywordAux 2 2 (("se").toList) TOKEN_ELSE lex
      else if lex.getD 1 nulChar = 'n' then checkKeywordAux 2 2 (("um").toList) TOKEN_ENUM lex
      else TOKEN_IDENTIFIER
    else TOKEN_IDENTIFIER
  else if lex.getD 0 nulChar = 'f' then
    if 1 < len then
      if lex.getD 1 nulChar = 'l' then checkKeywordAux 2 3 (("oat").toList) TOKEN_FLOAT lex
      else if lex.getD 1 nulChar = 'o' then checkKeywordAux 2 1 (("r").toList) TOKEN_FOR lex
      else TOKEN_IDENTIFIER
    else TOKEN_IDENTIFIER
  else if lex.getD 0 nulChar = 'g' then checkKeywordAux 1 3 (("oto").toList) TOKEN_GOTO lex
  else if lex.getD 0 nulChar = 'i' then
    if 1 < len then
      if lex.getD 1 nulChar = 'f' then checkKeywordAux 2 0 ([]) TOKEN_IF lex
      else if lex.getD 1 nulChar = 'n' then checkKeywordAux 2 1 (("t").toList) TOKEN_INT lex
      else TOKEN_IDENTIFIER
    else TOKEN_IDENTIFIER
  else if lex.getD 0 nulChar = 'l' then checkKeywordAux 1 3 (("ong").toList) TOKEN_LONG lex
  else if lex.getD 0 nulChar = 'r' then checkKeywordAux 1 5 (("eturn").toList) TOKEN_RETURN lex
  else if lex.getD 0 nulChar = 's' then
    if 1 < len then
      if lex.getD 1 nulChar = 'h' then checkKeywordAux 2 3 (("ort").toList) TOKEN_SHORT lex
      else if lex.getD 1 nulChar = 'i' then
        if 2 < len then
          if lex.getD 2 nulChar = 'g' then checkKeywordAux 3 3 (("ned").toList) TOKEN_SIGNED lex
          else if lex.getD 2 nulChar = 'z' then checkKeywordAux 3 3 (("eof").toList) TOKEN_SIZEOF lex
          else TOKEN_IDENTIFIER
        else TOKEN_IDENTIFIER
      else if lex.getD 1 nulChar = 't' then checkKeywordAux 2 4 (("ruct").toList) TOKEN_STRUCT lex
      else if lex.getD 1 nulChar = 'w' then checkKeywordAux 2 4 (("itch").toList) TOKEN_SWITCH lex
      else TOKEN_IDENTIFIER
    else TOKEN_IDENTIFIER
  else if lex.getD 0 nulChar = 't' then checkKeywordAux 1 6 (("ypedef").toList) TOKEN_TYPEDEF lex
  else if lex.getD 0 nulChar = 'u' then
    if 2 < len ∧ lex.getD 1 nulChar = 'n' then
      if lex.getD 2 nulChar = 'i' then checkKeywordAux 3 2 (("on").toList) TOKEN_UNION lex
      else if lex.getD 2 nulChar = 's' then checkKeywordAux 3 5 (("igned").toList) TOKEN_UNSIGNED lex
      else TOKEN_IDENTIFIER
    else TOKEN_IDENTIFIER
  else if lex.getD 0 nulChar = 'v' then checkKeywordAux 1 3 (("oid").toList) TOKEN_VOID lex
  else if lex.getD 0 nulChar = 'w' then checkKeywordAux 1 4 (("hile").toList) TOKEN_WHILE lex
  else TOKEN_IDENTIFIER

/-- `identifierType()` applied to the current lexeme range of the scanner. -/
def identifierTypeS (s : Scanner) : TokenType :=
  identifierTypeAux (sliceS s.src s.start s.current)

/-- `identifier()`: consume the maximal run of letters/digits/underscores,
then classify. -/
def identifierS (s : Scanner) : Token × Scanner :=
  let s1 := identLoopW s
  (makeTokenS (identifierTypeS s1) s1, s1)

/-- `number()`: the integer digit run; then a `.` is consumed only if the
character after it is a digit, followed by the fractional digit run. -/
def numberS (s : Scanner) : Token × Scanner :=
  let s1 := digitLoopW s
  if peekS s1 = '.' ∧ isDigit (peekNextS s1) = true then
    let s2 := digitLoopW (advanceS s1)
    (makeTokenS TOKEN_NUMBER s2, s2)
  else (makeTokenS TOKEN_NUMBER s1, s1)

/-- The multi-line string diagnostic of `string()`. -/
def strMultilineMsg : List Char := ("不支持多行字符串!").toList

/-- The unterminated-string diagnostic of `string()`. -/
def strUntermMsg : List Char := ("未终止的字符串字面量！").toList

/-- `string()`, as a fueled recursion: scan to the closing quote, erroring on
a newline (multi-line) or at end of buffer (unterminated); on success consume
the closing quote and make a STRING token spanning both delimiters. -/
def stringF : Nat → Scanner → Token × Scanner
  | 0, s => (errorTokenS strUntermMsg s, s)
  | fuel + 1, s =>
    if ¬ (isAtEndS s = true) ∧ peekS s ≠ '"' then
      if peekS s = '\n' then (errorTokenS strMultilineMsg s, s)
      else stringF fuel (advanceS s)
    else
      if isAtEndS s then (errorTokenS strUntermMsg s, s)
      else
        let s1 := advanceS s
        (makeTokenS TOKEN_STRING s1, s1)

/-- `string()` with sufficient fuel. -/
def stringS (s : Scanner) : Token × Scanner :=
  stringF (s.src.length + 1 - s.current) s

/-- The missing-closing-quote diagnostic of `character()`. -/
def chIncompleteMsg : List Char := ("此字符不完整,缺少右单引号!").toList

/-- The multi-line character diagnostic of `character()`. -/
def chMultilineMsg : List Char := ("不支持多行字符!").toList

/-- The prefix of the non-single-character diagnostic that `character()`
formats with `sprintf(message, "非单字符Token: %.*s", charLen, charStart)`. -/
def chNonSingleMsgHead : List Char := ("非单字符Token: ").toList

/-- The loop and tail of `character()`, as a fueled recursion: scan to the
closing single quote (erroring on newline or end of buffer), consume it, and
accept an enclosed length of 1 or 0; otherwise format the error message
embedding the enclosed text. -/
def characterLoopF : Nat → Scanner → Token × Scanner
  | 0, s => (errorTokenS chIncompleteMsg s, s)
  | fuel + 1, s =>
    if ¬ (isAtEndS s = true) ∧ peekS s ≠ '\'' then
      if peekS s = '\n' then (errorTokenS chMultilineMsg s, s)
      else characterLoopF fuel (advanceS s)
    else
      if isAtEndS s then (errorTokenS chIncompleteMsg s, s)
      else
        let s1 := advanceS s
        let charLen := s1.current - s1.start - 2
        if charLen = 1 ∨ charLen = 0 then (makeTokenS TOKEN_CHARACTER s1, s1)
        else
          (errorTokenS
            (chNonSingleMsgHead ++ sliceS s1.src (s1.start + 1) (s1.start + 1 + charLen)) s1,
           s1)

/-- `character()`: the up-front end-of-buffer check, then the loop. -/
def characterS (s : Scanner) : Token × Scanner :=
  if isAtEndS s then (errorTokenS chIncompleteMsg s, s)
  else characterLoopF (s.src.length + 1 - s.current) s

/-- The diagnostic of `errorTokenWithChar`:
`sprintf(message, "意外字符：%c", character)`. -/
def unexpectedCharMsg (c : Char) : List Char := ("意外字符：").toList ++ [c]

/-- The dispatch part of `scanToken()` (everything after the EOF check):
consume the lead character and dispatch — maximal identifier/number handlers,
the single-character and one-lookahead operator cases of the switch (note:
the C switch has no case for `[` or `]`), the string/character handlers, and
the unexpected-character error token. -/
def scanDispatch (sb : Scanner) : Token × Scanner :=
    let c := peekS sb
    let s1 := advanceS sb
    if isAlpha c then identifierS s1
    else if isDigit c then numberS s1
    else if c = '(' then (makeTokenS TOKEN_LEFT_PAREN s1, s1)
    else if c = ')' then (makeTokenS TOKEN_RIGHT_PAREN s1, s1)
    else if c = '{' then (makeTokenS TOKEN_LEFT_BRACE s1, s1)
    else if c = '}' then (makeTokenS TOKEN_RIGHT_BRACE s1, s1)
    else if c = ',' then (makeTokenS TOKEN_COMMA s1, s1)
    else if c = '.' then (makeTokenS TOKEN_DOT s1, s1)
    else if c = ';' then (makeTokenS TOKEN_SEMICOLON s1, s1)
    else if c = '~' then (makeTokenS TOKEN_TILDE s1, s1)
    else if c = '+' then
      let r1 := matchS '+' s1
      if r1.1 then (makeTokenS TOKEN_PLUS_PLUS r1.2, r1.2)
      else
        let r2 := matchS '=' r1.2
        if r2.1 then (makeTokenS TOKEN_PLUS_EQUAL r2.2, r2.2)
        else (makeTokenS TOKEN_PLUS r2.2, r2.2)
    else if c = '-' then
      let r1 := matchS '-' s1
      if r1.1 then (makeTokenS TOKEN_MINUS_MINUS r1.2, r1.2)
      else
        let r2 := matchS '=' r1.2
        if r2.1 then (makeTokenS TOKEN_MINUS_EQUAL r2.2, r2.2)
        else
          let r3 := matchS '>' r2.2
          if r3.1 then (makeTokenS TOKEN_MINUS_GREATER r3.2, r3.2)
          else (makeTokenS TOKEN_MINUS r3.2, r3.2)
    else if c = '*' then
      let r := matchS '=' s1
      (makeTokenS (if r.1 then TOKEN_STAR_EQUAL else TOKEN_STAR) r.2, r.2)
    else if c = '/' then
      let r := matchS '=' s1
      (makeTokenS (if r.1 then TOKEN_SLASH_EQUAL else TOKEN_SLASH) r.2, r.2)
    else if c = '%' then
      let r := matchS '=' s1
      (makeTokenS (if r.1 then TOKEN_PERCENT_EQUAL else TOKEN_PERCENT) r.2, r.2)
    else if c = '&' then
      let r1 := matchS '=' s1
      if r1.1 then (makeTokenS TOKEN_AMPER_EQUAL r1.2, r1.2)
      else
        let r2 := matchS '&' r1.2
        if r2.1 then (makeTokenS TOKEN_AMPER_AMPER r2.2, r2.2)
        else (makeTokenS TOKEN_AMPER r2.2, r2.2)
    else if c = '|' then
      let r1 := matchS '=' s1
      if r1.1 then (makeTokenS TOKEN_PIPE_EQUAL r1.2, r1.2)
      else
        let r2 := matchS '|' r1.2
        if r2.1 then (makeTokenS TOKEN_PIPE_PIPE r2.2, r2.2)
        else (makeTokenS TOKEN_PIPE r2.2, r2.2)
    else if c = '^' then
      let r := matchS '=' s1
      (makeTokenS (if r.1 then TOKEN_HAT_EQUAL else TOKEN_HAT) r.2, r.2)
    else if c = '=' then
      let r := matchS '=' s1
      (makeTokenS (if r.1 then TOKEN_EQUAL_EQUAL else TOKEN_EQUAL) r.2, r.2)
    else if c = '!' then
      let r := matchS '=' s1
      (makeTokenS (if r.1 then TOKEN_BANG_EQUAL else TOKEN_BANG) r.2, r.2)
    else if c = '<' then
      let r1 := matchS '=' s1
      if r1.1 then (makeTokenS TOKEN_LESS_EQUAL r1.2, r1.2)
      else
        let r2 := matchS '<' r1.2
        if r2.1 then (makeTokenS TOKEN_LESS_LESS r2.2, r2.2)
        else (makeTokenS TOKEN_LESS r2.2, r2.2)
    else if c = '>' then
      let r1 := matchS '=' s1
      if r1.1 then (makeTokenS TOKEN_GREATER_EQUAL r1.2, r1.2)
      else
        let r2 := matchS '>' r1.2
        if r2.1 then (makeTokenS TOKEN_GREATER_GREATER r2.2, r2.2)
        else (makeTokenS TOKEN_GREATER r2.2, r2.2)
    else if c = '"' then stringS s1
    else if c = '\'' then characterS s1
    else (errorTokenS (unexpectedCharMsg c) s1, s1)

/-- `scanToken()`: skip whitespace/comments, set `start`, return EOF at the
end of the buffer, and otherwise dispatch on the lead character. -/
def scanTokenS (s0 : Scanner) : Token × Scanner :=
  let sw := skipWhitespaceS s0
  let sb := { sw with start := sw.current }
  if isAtEndS sb then (makeTokenS TOKEN_EOF sb, sb)
  else scanDispatch sb

/-- The scanner state after `n` further calls to `scanToken()`. -/
def scanSteps : Scanner → Nat → Scanner
  | s, 0 => s
  | s, n + 1 => scanSteps (scanTokenS s).2 n

/-- The token produced by the `(n+1)`-th call to `scanToken()` (0-indexed). -/
def nthToken (s : Scanner) (n : Nat) : Token := (scanTokenS (scanSteps s n)).1

/-- Modelled from the spec: the fixed, closed reserved-word set of §6 with the
keyword tag each word maps to. -/
def keywordList : List (List Char × TokenType) := [
  (("signed").toList, TOKEN_SIGNED), (("unsigned").toList, TOKEN_UNSIGNED),
  (("char").toList, TOKEN_CHAR), (("short").toList, TOKEN_SHORT),
  (("int").toList, TOKEN_INT), (("long").toList, TOKEN_LONG),
  (("float").toList, TOKEN_FLOAT), (("double").toList, TOKEN_DOUBLE),
  (("struct").toList, TOKEN_STRUCT), (("union").toList, TOKEN_UNION),
  (("enum").toList, TOKEN_ENUM), (("void").toList, TOKEN_VOID),
  (("if").toList, TOKEN_IF), (("else").toList, TOKEN_ELSE),
  (("switch").toList, TOKEN_SWITCH), (("case").toList, TOKEN_CASE),
  (("default").toList, TOKEN_DEFAULT), (("while").toList, TOKEN_WHILE),
  (("do").toList, TOKEN_DO), (("for").toList, TOKEN_FOR),
  (("break").toList, TOKEN_BREAK), (("continue").toList, TOKEN_CONTINUE),
  (("return").toList, TOKEN_RETURN), (("goto").toList, TOKEN_GOTO),
  (("const").toList, TOKEN_CONST), (("sizeof").toList, TOKEN_SIZEOF),
  (("typedef").toList, TOKEN_TYPEDEF)]

/-- The 27 reserved words themselves. -/
def keywordWords : List (List Char) := keywordList.map Prod.fst

/-- Modelled from the spec (§4.3): classification identical to exact string
equality against the reserved-word set — the keyword tag of the word that is
character-for-character equal to the lexeme, identifier otherwise. -/
def keywordSpec (lex : List Char) : TokenType :=
  match keywordList.find? (fun p => p.1 == lex) with
  | some p => p.2
  | none => TOKEN_IDENTIFIER

/-- `a` is a scanner state reachable from `b` without touching the buffer or
the line counter and without moving the read cursor backwards. -/
def StepOk (a b : Scanner) : Prop :=
  a.src = b.src ∧ a.line = b.line ∧ b.current ≤ a.current

/-- The UTF-8 byte length of a character sequence (what `sprintf` counts when
writing it into the `char` array `message`). -/
def utf8Len (l : List Char) : Nat := l.foldl (fun n c => n + c.utf8Size) 0

/-- `static char message[50]`: the capacity of the diagnostic buffer. -/
def messageCapacity : Nat := 50

/-- The number of bytes `sprintf` writes for a formatted message: the UTF-8
bytes of the text plus the terminating NUL byte. -/
def sprintfBytesWritten (msg : List Char) : Nat := utf8Len msg + 1

theorem getD_lt_length (l : List Char) (i : Nat) (h : l.getD i nulChar ≠ nulChar) :
    i < l.length := by
  by_contra hc
  push_neg at hc
  exact h (List.getD_eq_default _ _ hc)

theorem take_one_eq (l : List Char) (h : 1 ≤ l.length) :
    l.take 1 = [l.getD 0 nulChar] := by
  match l with
  | [] => simp at h
  | a :: t => rfl

theorem take_two_eq (l : List Char) (h : 2 ≤ l.length) :
    l.take 2 = [l.getD 0 nulChar, l.getD 1 nulChar] := by
  match l with
  | [] => simp at h
  | [a] => simp at h
  | a :: b :: t => rfl

theorem take_three_eq (l : List Char) (h : 3 ≤ l.length) :
    l.take 3 = [l.getD 0 nulChar, l.getD 1 nulChar, l.getD 2 nulChar] := by
  match l with
  | [] => simp at h
  | [a] => simp at h
  | [a, b] => simp at h
  | a :: b :: c :: t => rfl

theorem take_four_eq (l : List Char) (h : 4 ≤ l.length) :
    l.take 4 = [l.getD 0 nulChar, l.getD 1 nulChar, l.getD 2 nulChar, l.getD 3 nulChar] := by
  match l with
  | [] => simp at h
  | [a] => simp at h
  | [a, b] => simp at h
  | [a, b, c] => simp at h
  | a :: b :: c :: d :: t => rfl

/-- `checkKeyword`'s length test plus `memcmp` amount to: the lexeme equals
the known prefix (the characters already dispatched on) followed by `rest`. -/
theorem checkKeywordAux_sound (st ln : Nat) (rest pre lex : List Char) (ty : TokenType)
    (hln : rest.length = ln) (hst : pre.length = st) (hpre : lex.take st = pre) :
    checkKeywordAux st ln rest ty lex = if lex = pre ++ rest then ty else TOKEN_IDENTIFIER := by
  unfold checkKeywordAux
  have hcond : (lex.length = st + ln ∧ (lex.drop st).take ln = rest) ↔ lex = pre ++ rest := by
    constructor
    · rintro ⟨hl, hs⟩
      have hdl : (lex.drop st).length ≤ ln := by
        rw [List.length_drop]; omega
      have hd : lex.drop st = rest := by
        rw [← hs, List.take_of_length_le hdl]
      calc lex = lex.take st ++ lex.drop st := (List.take_append_drop st lex).symm
        _ = pre ++ rest := by rw [hpre, hd]
    · rintro rfl
      refine ⟨by simp [List.length_append]; omega, ?_⟩
      rw [← hst, List.drop_left, ← hln, List.take_length]
  exact if_congr hcond rfl rfl

/-- The spec-modelled classifier returns `TOKEN_IDENTIFIER` exactly on
lexemes that are not reserved words. -/
theorem keywordSpec_eq_ident_iff (lex : List Char) :
    keywordSpec lex = TOKEN_IDENTIFIER ↔ lex ∉ keywordWords := by
  have hvals : ∀ q ∈ keywordList, q.2 ≠ TOKEN_IDENTIFIER := by decide
  unfold keywordSpec
  split
  next p hf =>
    have hmemL : p ∈ keywordList := List.mem_of_find?_eq_some hf
    have hp1 : p.1 = lex := by
      have := List.find?_some hf
      simpa using this
    constructor
    · intro h
      exact absurd h (hvals p hmemL)
    · intro hmem
      exact absurd (hp1 ▸ List.mem_map_of_mem Prod.fst hmemL) hmem
  next hf =>
    rw [List.find?_eq_none] at hf
    constructor
    · intro _ hmem
      obtain ⟨q, hq, hq1⟩ := List.mem_map.mp hmem
      exact hf q hq (by simp [hq1])
    · intro _
      rfl

theorem keywordSpec_ident_of_no_word (lex : List Char) (h : lex ∉ keywordWords) :
    TOKEN_IDENTIFIER = keywordSpec lex :=
  ((keywordSpec_eq_ident_iff lex).mpr h).symm

/-- Discharges one `checkKeyword` call site: given the prefix of the lexeme
already pinned down by the dispatch path, and that the site's word is the only
reserved word with that prefix, the site agrees with the spec classifier. -/
theorem kwFinish (st ln : Nat) (rest pre lex : List Char) (ty : TokenType)
    (hln : rest.length = ln) (hst : pre.length = st) (hpre : lex.take st = pre)
    (hty : keywordSpec (pre ++ rest) = ty)
    (huniq : ∀ w ∈ keywordWords, w.take st = pre → w = pre ++ rest) :
    checkKeywordAux st ln rest ty lex = keywordSpec lex := by
  rw [checkKeywordAux_sound st ln rest pre lex ty hln hst hpre]
  by_cases hw : lex = pre ++ rest
  · rw [if_pos hw, hw, hty]
  · rw [if_neg hw]
    symm
    rw [keywordSpec_eq_ident_iff]
    intro hmem
    exact hw (huniq lex hmem hpre)

theorem branch_c (lex : List Char) (hc : lex.getD 0 nulChar = 'c') :
    (if 1 < lex.length then
      if lex.getD 1 nulChar = 'a' then checkKeywordAux 2 2 (("se").toList) TOKEN_CASE lex
      else if lex.getD 1 nulChar = 'h' then checkKeywordAux 2 2 (("ar").toList) TOKEN_CHAR lex
      else if lex.getD 1 nulChar = 'o' then
        if 3 < lex.length ∧ lex.getD 2 nulChar = 'n' then
          if lex.getD 3 nulChar = 's' then checkKeywordAux 4 1 (("t").toList) TOKEN_CONST lex
          else if lex.getD 3 nulChar = 't' then checkKeywordAux 4 4 (("inue").toList) TOKEN_CONTINUE lex
          else TOKEN_IDENTIFIER
        else TOKEN_IDENTIFIER
      else TOKEN_IDENTIFIER
    else TOKEN_IDENTIFIER) = keywordSpec lex := by
  by_cases hlen1 : 1 < lex.length
  · rw [if_pos hlen1]
    by_cases ha : lex.getD 1 nulChar = 'a'
    · rw [if_pos ha]
      have hpre : lex.take 2 = ['c', 'a'] := by
        rw [take_two_eq lex (by omega), hc, ha]
      exact kwFinish 2 2 (("se").toList) (['c', 'a']) lex TOKEN_CASE (by decide) (by decide)
        hpre (by decide) (by decide)
    · rw [if_neg ha]
      by_cases hh : lex.getD 1 nulChar = 'h'
      · rw [if_pos hh]
        have hpre : lex.take 2 = ['c', 'h'] := by
          rw [take_two_eq lex (by omega), hc, hh]
        exact kwFinish 2 2 (("ar").toList) (['c', 'h']) lex TOKEN_CHAR (by decide) (by decide)
          hpre (by decide) (by decide)
      · rw [if_neg hh]
        by_cases ho : lex.getD 1 nulChar = 'o'
        · rw [if_pos ho]
          by_cases hon : 3 < lex.length ∧ lex.getD 2 nulChar = 'n'
          · rw [if_pos hon]
            obtain ⟨hlen3, hn⟩ := hon
            by_cases hs3 : lex.getD 3 nulChar = 's'
            · rw [if_pos hs3]
              have hpre : lex.take 4 = ['c', 'o', 'n', 's'] := by
                rw [take_four_eq lex (by omega), hc, ho, hn, hs3]
              exact kwFinish 4 1 (("t").toList) (['c', 'o', 'n', 's']) lex TOKEN_CONST
                (by decide) (by decide) hpre (by decide) (by decide)
            · rw [if_neg hs3]
              by_cases ht3 : lex.getD 3 nulChar = 't'
              · rw [if_pos ht3]
                have hpre : lex.take 4 = ['c', 'o', 'n', 't'] := by
                  rw [take_four_eq lex (by omega), hc, ho, hn, ht3]
                exact kwFinish 4 4 (("inue").toList) (['c', 'o', 'n', 't']) lex TOKEN_CONTINUE
                  (by decide) (by decide) hpre (by decide) (by decide)
              · rw [if_neg ht3]
                apply keywordSpec_ident_of_no_word
                intro hmem
                rcases (by decide : ∀ w ∈ keywordWords, w.getD 0 nulChar = 'c' →
                    w.getD 1 nulChar = 'o' →
                    w.getD 3 nulChar = 's' ∨ w.getD 3 nulChar = 't') lex hmem hc ho with h | h
                · exact hs3 h
                · exact ht3 h
          · rw [if_neg hon]
            apply keywordSpec_ident_of_no_word
            intro hmem
            exact hon ((by decide : ∀ w ∈ keywordWords, w.getD 0 nulChar = 'c' →
              w.getD 1 nulChar = 'o' → 3 < w.length ∧ w.getD 2 nulChar = 'n') lex hmem hc ho)
        · rw [if_neg ho]
          apply keywordSpec_ident_of_no_word
          intro hmem
          rcases (by decide : ∀ w ∈ keywordWords, w.getD 0 nulChar = 'c' →
              w.getD 1 nulChar = 'a' ∨ w.getD 1 nulChar = 'h' ∨ w.getD 1 nulChar = 'o')
              lex hmem hc with h | h | h
          · exact ha h
          · exact hh h
          · exact ho h
  · rw [if_neg hlen1]
    apply keywordSpec_ident_of_no_word
    intro hmem
    exact hlen1 ((by decide : ∀ w ∈ keywordWords, w.getD 0 nulChar = 'c' → 1 < w.length)
      lex hmem hc)

theorem branch_d (lex : List Char) (hd0 : lex.getD 0 nulChar = 'd') :
    (if 1 < lex.length then
      if lex.getD 1 nulChar = 'e' then checkKeywordAux 2 5 (("fault").toList) TOKEN_DEFAULT lex
      else if lex.getD 1 nulChar = 'o' then
        if lex.length = 2 then TOKEN_DO else checkKeywordAux 2 4 (("uble").toList) TOKEN_DOUBLE lex
      else TOKEN_IDENTIFIER
    else TOKEN_IDENTIFIER) = keywordSpec lex := by
  by_cases hlen1 : 1 < lex.length
  · rw [if_pos hlen1]
    by_cases he1 : lex.getD 1 nulChar = 'e'
    · rw [if_pos he1]
      have hpre : lex.take 2 = ['d', 'e'] := by
        rw [take_two_eq lex (by omega), hd0, he1]
      exact kwFinish 2 5 (("fault").toList) (['d', 'e']) lex TOKEN_DEFAULT (by decide)
        (by decide) hpre (by decide) (by decide)
    · rw [if_neg he1]
      by_cases ho : lex.getD 1 nulChar = 'o'
      · rw [if_pos ho]
        have hpre : lex.take 2 = ['d', 'o'] := by
          rw [take_two_eq lex (by omega), hd0, ho]
        by_cases hlen2 : lex.length = 2
        · rw [if_pos hlen2]
          have h2 : lex.take 2 = lex := List.take_of_length_le (by omega)
          rw [h2.symm.trans hpre]
          decide
        · rw [if_neg hlen2]
          rw [checkKeywordAux_sound 2 4 (("uble").toList) (['d', 'o']) lex TOKEN_DOUBLE
            (by decide) (by decide) hpre]
          by_cases hw : lex = ['d', 'o'] ++ ("uble").toList
          · rw [if_pos hw, hw]
            decide
          · rw [if_neg hw]
            apply keywordSpec_ident_of_no_word
            intro hmem
            exact hw ((by decide : ∀ w ∈ keywordWords, w.take 2 = ['d', 'o'] →
              ¬(w.length = 2) → w = ['d', 'o'] ++ ("uble").toList) lex hmem hpre hlen2)
      · rw [if_neg ho]
        apply keywordSpec_ident_of_no_word
        intro hmem
        rcases (by decide : ∀ w ∈ keywordWords, w.getD 0 nulChar = 'd' →
            w.getD 1 nulChar = 'e' ∨ w.getD 1 nulChar = 'o') lex hmem hd0 with h | h
        · exact he1 h
        · exact ho h
  · rw [if_neg hlen1]
    apply keywordSpec_ident_of_no_word
    intro hmem
    exact hlen1 ((by decide : ∀ w ∈ keywordWords, w.getD 0 nulChar = 'd' → 1 < w.length)
      lex hmem hd0)

theorem branch_e (lex : List Char) (he0 : lex.getD 0 nulChar = 'e') :
    (if 1 < lex.length then
      if lex.getD 1 nulChar = 'l' then checkKeywordAux 2 2 (("se").toList) TOKEN_ELSE lex
      else if lex.getD 1 nulChar = 'n' then checkKeywordAux 2 2 (("um").toList) TOKEN_ENUM lex
      else TOKEN_IDENTIFIER
    else TOKEN_IDENTIFIER) = keywordSpec lex := by
  by_cases hlen1 : 1 < lex.length
  · rw [if_pos hlen1]
    by_cases hl1 : lex.getD 1 nulChar = 'l'
    · rw [if_pos hl1]
      have hpre : lex.take 2 = ['e', 'l'] := by
        rw [take_two_eq lex (by omega), he0, hl1]
      exact kwFinish 2 2 (("se").toList) (['e', 'l']) lex TOKEN_ELSE (by decide) (by decide)
        hpre (by decide) (by decide)
    · rw [if_neg hl1]
      by_cases hn1 : lex.getD 1 nulChar = 'n'
      · rw [if_pos hn1]
        have hpre : lex.take 2 = ['e', 'n'] := by
          rw [take_two_eq lex (by omega), he0, hn1]
        exact kwFinish 2 2 (("um").toList) (['e', 'n']) lex TOKEN_ENUM (by decide) (by decide)
          hpre (by decide) (by decide)
      · rw [if_neg hn1]
        apply keywordSpec_ident_of_no_word
        intro hmem
        rcases (by decide : ∀ w ∈ keywordWords, w.getD 0 nulChar = 'e' →
            w.getD 1 nulChar = 'l' ∨ w.getD 1 nulChar = 'n') lex hmem he0 with h | h
        · exact hl1 h
        · exact hn1 h
  · rw [if_neg hlen1]
    apply keywordSpec_ident_of_no_word
    intro hmem
    exact hlen1 ((by decide : ∀ w ∈ keywordWords, w.getD 0 nulChar = 'e' → 1 < w.length)
      lex hmem he0)

theorem branch_f (lex : List Char) (hf0 : lex.getD 0 nulChar = 'f') :
    (if 1 < lex.length then
      if lex.getD 1 nulChar = 'l' then checkKeywordAux 2 3 (("oat").toList) TOKEN_FLOAT lex
      else if lex.getD 1 nulChar = 'o' then checkKeywordAux 2 1 (("r").toList) TOKEN_FOR lex
      else TOKEN_IDENTIFIER
    else TOKEN_IDENTIFIER) = keywordSpec lex := by
  by_cases hlen1 : 1 < lex.length
  · rw [if_pos hlen1]
    by_cases hl1 : lex.getD 1 nulChar = 'l'
    · rw [if_pos hl1]
      have hpre : lex.take 2 = ['f', 'l'] := by
        rw [take_two_eq lex (by omega), hf0, hl1]
      exact kwFinish 2 3 (("oat").toList) (['f', 'l']) lex TOKEN_FLOAT (by decide) (by decide)
        hpre (by decide) (by decide)
    · rw [if_neg hl1]
      by_cases ho1 : lex.getD 1 nulChar = 'o'
      · rw [if_pos ho1]
        have hpre : lex.take 2 = ['f', 'o'] := by
          rw [take_two_eq lex (by omega), hf0, ho1]
        exact kwFinish 2 1 (("r").toList) (['f', 'o']) lex TOKEN_FOR (by decide) (by decide)
          hpre (by decide) (by decide)
      · rw [if_neg ho1]
        apply keywordSpec_ident_of_no_word
        intro hmem
        rcases (by decide : ∀ w ∈ keywordWords, w.getD 0 nulChar = 'f' →
            w.getD 1 nulChar = 'l' ∨ w.getD 1 nulChar = 'o') lex hmem hf0 with h | h
        · exact hl1 h
        · exact ho1 h
  · rw [if_neg hlen1]
    apply keywordSpec_ident_of_no_word
    intro hmem
    exact hlen1 ((by decide : ∀ w ∈ keywordWords, w.getD 0 nulChar = 'f' → 1 < w.length)
      lex hmem hf0)

theorem branch_i (lex : List Char) (hi0 : lex.getD 0 nulChar = 'i') :
    (if 1 < lex.length then
      if lex.getD 1 nulChar = 'f' then checkKeywordAux 2 0 ([]) TOKEN_IF lex
      else if lex.getD 1 nulChar = 'n' then checkKeywordAux 2 1 (("t").toList) TOKEN_INT lex
      else TOKEN_IDENTIFIER
    else TOKEN_IDENTIFIER) = keywordSpec lex := by
  by_cases hlen1 : 1 < lex.length
  · rw [if_pos hlen1]
    by_cases hf1 : lex.getD 1 nulChar = 'f'
    · rw [if_pos hf1]
      have hpre : lex.take 2 = ['i', 'f'] := by
        rw [take_two_eq lex (by omega), hi0, hf1]
      exact kwFinish 2 0 ([]) (['i', 'f']) lex TOKEN_IF (by decide) (by decide)
        hpre (by decide) (by decide)
    · rw [if_neg hf1]
      by_cases hn1 : lex.getD 1 nulChar = 'n'
      · rw [if_pos hn1]
        have hpre : lex.take 2 = ['i', 'n'] := by
          rw [take_two_eq lex (by omega), hi0, hn1]
        exact kwFinish 2 1 (("t").toList) (['i', 'n']) lex TOKEN_INT (by decide) (by decide)
          hpre (by decide) (by decide)
      · rw [if_neg hn1]
        apply keywordSpec_ident_of_no_word
        intro hmem
        rcases (by decide : ∀ w ∈ keywordWords, w.getD 0 nulChar = 'i' →
            w.getD 1 nulChar = 'f' ∨ w.getD 1 nulChar = 'n') lex hmem hi0 with h | h
        · exact hf1 h
        · exact hn1 h
  · rw [if_neg hlen1]
    apply keywordSpec_ident_of_no_word
    intro hmem
    exact hlen1 ((by decide : ∀ w ∈ keywordWords, w.getD 0 nulChar = 'i' → 1 < w.length)
      lex hmem hi0)

theorem branch_s (lex : List Char) (hs0 : lex.getD 0 nulChar = 's') :
    (if 1 < lex.length then
      if lex.getD 1 nulChar = 'h' then checkKeywordAux 2 3 (("ort").toList) TOKEN_SHORT lex
      else if lex.getD 1 nulChar = 'i' then
        if 2 < lex.length then
          if lex.getD 2 nulChar = 'g' then checkKeywordAux 3 3 (("ned").toList) TOKEN_SIGNED lex
          else if lex.getD 2 nulChar = 'z' then checkKeywordAux 3 3 (("eof").toList) TOKEN_SIZEOF lex
          else TOKEN_IDENTIFIER
        else TOKEN_IDENTIFIER
      else if lex.getD 1 nulChar = 't' then checkKeywordAux 2 4 (("ruct").toList) TOKEN_STRUCT lex
      else if lex.getD 1 nulChar = 'w' then checkKeywordAux 2 4 (("itch").toList) TOKEN_SWITCH lex
      else TOKEN_IDENTIFIER
    else TOKEN_IDENTIFIER) = keywordSpec lex := by
  by_cases hlen1 : 1 < lex.length
  · rw [if_pos hlen1]
    by_cases hh1 : lex.getD 1 nulChar = 'h'
    · rw [if_pos hh1]
      have hpre : lex.take 2 = ['s', 'h'] := by
        rw [take_two_eq lex (by omega), hs0, hh1]
      exact kwFinish 2 3 (("ort").toList) (['s', 'h']) lex TOKEN_SHORT (by decide) (by decide)
        hpre (by decide) (by decide)
    · rw [if_neg hh1]
      by_cases hi1 : lex.getD 1 nulChar = 'i'
      · rw [if_pos hi1]
        by_cases hlen2 : 2 < lex.length
        · rw [if_pos hlen2]
          by_cases hg2 : lex.getD 2 nulChar = 'g'
          · rw [if_pos hg2]
            have hpre : lex.take 3 = ['s', 'i', 'g'] := by
              rw [take_three_eq lex (by omega), hs0, hi1, hg2]
            exact kwFinish 3 3 (("ned").toList) (['s', 'i', 'g']) lex TOKEN_SIGNED (by decide)
              (by decide) hpre (by decide) (by decide)
          · rw [if_neg hg2]
            by_cases hz2 : lex.getD 2 nulChar = 'z'
            · rw [if_pos hz2]
              have hpre : lex.take 3 = ['s', 'i', 'z'] := by
                rw [take_three_eq lex (by omega), hs0, hi1, hz2]
              exact kwFinish 3 3 (("eof").toList) (['s', 'i', 'z']) lex TOKEN_SIZEOF (by decide)
                (by decide) hpre (by decide) (by decide)
            · rw [if_neg hz2]
              apply keywordSpec_ident_of_no_word
              intro hmem
              rcases (by decide : ∀ w ∈ keywordWords, w.getD 0 nulChar = 's' →
                  w.getD 1 nulChar = 'i' →
                  w.getD 2 nulChar = 'g' ∨ w.getD 2 nulChar = 'z') lex hmem hs0 hi1 with h | h
              · exact hg2 h
              · exact hz2 h
        · rw [if_neg hlen2]
          apply keywordSpec_ident_of_no_word
          intro hmem
          exact hlen2 ((by decide : ∀ w ∈ keywordWords, w.getD 0 nulChar = 's' →
            w.getD 1 nulChar = 'i' → 2 < w.length) lex hmem hs0 hi1)
      · rw [if_neg hi1]
        by_cases ht1 : lex.getD 1 nulChar = 't'
        · rw [if_pos ht1]
          have hpre : lex.take 2 = ['s', 't'] := by
            rw [take_two_eq lex (by omega), hs0, ht1]
          exact kwFinish 2 4 (("ruct").toList) (['s', 't']) lex TOKEN_STRUCT (by decide)
            (by decide) hpre (by decide) (by decide)
        · rw [if_neg ht1]
          by_cases hw1 : lex.getD 1 nulChar = 'w'
          · rw [if_pos hw1]
            have hpre : lex.take 2 = ['s', 'w'] := by
              rw [take_two_eq lex (by omega), hs0, hw1]
            exact kwFinish 2 4 (("itch").toList) (['s', 'w']) lex TOKEN_SWITCH (by decide)
              (by decide) hpre (by decide) (by decide)
          · rw [if_neg hw1]
            apply keywordSpec_ident_of_no_word
            intro hmem
            rcases (by decide : ∀ w ∈ keywordWords, w.getD 0 nulChar = 's' →
                w.getD 1 nulChar = 'h' ∨ w.getD 1 nulChar = 'i' ∨
                w.getD 1 nulChar = 't' ∨ w.getD 1 nulChar = 'w') lex hmem hs0 with h | h | h | h
            · exact hh1 h
            · exact hi1 h
            · exact ht1 h
            · exact hw1 h
  · rw [if_neg hlen1]
    apply keywordSpec_ident_of_no_word
    intro hmem
    exact hlen1 ((by decide : ∀ w ∈ keywordWords, w.getD 0 nulChar = 's' → 1 < w.length)
      lex hmem hs0)

theorem branch_u (lex : List Char) (hu0 : lex.getD 0 nulChar = 'u') :
    (if 2 < lex.length ∧ lex.getD 1 nulChar = 'n' then
      if lex.getD 2 nulChar = 'i' then checkKeywordAux 3 2 (("on").toList) TOKEN_UNION lex
      else if lex.getD 2 nulChar = 's' then checkKeywordAux 3 5 (("igned").toList) TOKEN_UNSIGNED lex
      else TOKEN_IDENTIFIER
    else TOKEN_IDENTIFIER) = keywordSpec lex := by
  by_cases hun : 2 < lex.length ∧ lex.getD 1 nulChar = 'n'
  · rw [if_pos hun]
    obtain ⟨hlen2, hn1⟩ := hun
    by_cases hi2 : lex.getD 2 nulChar = 'i'
    · rw [if_pos hi2]
      have hpre : lex.take 3 = ['u', 'n', 'i'] := by
        rw [take_three_eq lex (by omega), hu0, hn1, hi2]
      exact kwFinish 3 2 (("on").toList) (['u', 'n', 'i']) lex TOKEN_UNION (by decide)
        (by decide) hpre (by decide) (by decide)
    · rw [if_neg hi2]
      by_cases hs2 : lex.getD 2 nulChar = 's'
      · rw [if_pos hs2]
        have hpre : lex.take 3 = ['u', 'n', 's'] := by
          rw [take_three_eq lex (by omega), hu0, hn1, hs2]
        exact kwFinish 3 5 (("igned").toList) (['u', 'n', 's']) lex TOKEN_UNSIGNED (by decide)
          (by decide) hpre (by decide) (by decide)
      · rw [if_neg hs2]
        apply keywordSpec_ident_of_no_word
        intro hmem
        rcases (by decide : ∀ w ∈ keywordWords, w.getD 0 nulChar = 'u' →
            w.getD 2 nulChar = 'i' ∨ w.getD 2 nulChar = 's') lex hmem hu0 with h | h
        · exact hi2 h
        · exact hs2 h
  · rw [if_neg hun]
    apply keywordSpec_ident_of_no_word
    intro hmem
    exact hun ((by decide : ∀ w ∈ keywordWords, w.getD 0 nulChar = 'u' →
      2 < w.length ∧ w.getD 1 nulChar = 'n') lex hmem hu0)

/-- The trie-shaped `identifierType()` computes exactly the spec's
classification: exact string equality against the closed reserved-word set. -/
theorem identifierTypeAux_eq_keywordSpec (lex : List Char) :
    identifierTypeAux lex = keywordSpec lex := by
  simp only [identifierTypeAux]
  by_cases hb : lex.getD 0 nulChar = 'b'
  · rw [if_pos hb]
    have hpre : lex.take 1 = ['b'] := by
      rw [take_one_eq lex (getD_lt_length lex 0 (by rw [hb]; decide)), hb]
    exact kwFinish 1 4 (("reak").toList) (['b']) lex TOKEN_BREAK (by decide) (by decide)
      hpre (by decide) (by decide)
  · rw [if_neg hb]
    by_cases hc : lex.getD 0 nulChar = 'c'
    · rw [if_pos hc]
      exact branch_c lex hc
    · rw [if_neg hc]
      by_cases hd : lex.getD 0 nulChar = 'd'
      · rw [if_pos hd]
        exact branch_d lex hd
      · rw [if_neg hd]
        by_cases he : lex.getD 0 nulChar = 'e'
        · rw [if_pos he]
          exact branch_e lex he
        · rw [if_neg he]
          by_cases hf : lex.getD 0 nulChar = 'f'
          · rw [if_pos hf]
            exact branch_f lex hf
          · rw [if_neg hf]
            by_cases hg : lex.getD 0 nulChar = 'g'
            · rw [if_pos hg]
              have hpre : lex.take 1 = ['g'] := by
                rw [take_one_eq lex (getD_lt_length lex 0 (by rw [hg]; decide)), hg]
              exact kwFinish 1 3 (("oto").toList) (['g']) lex TOKEN_GOTO (by decide) (by decide)
                hpre (by decide) (by decide)
            · rw [if_neg hg]
              by_cases hi : lex.getD 0 nulChar = 'i'
              · rw [if_pos hi]
                exact branch_i lex hi
              · rw [if_neg hi]
                by_cases hl : lex.getD 0 nulChar = 'l'
                · rw [if_pos hl]
                  have hpre : lex.take 1 = ['l'] := by
                    rw [take_one_eq lex (getD_lt_length lex 0 (by rw [hl]; decide)), hl]
                  exact kwFinish 1 3 (("ong").toList) (['l']) lex TOKEN_LONG (by decide)
                    (by decide) hpre (by decide) (by decide)
                · rw [if_neg hl]
                  by_cases hr : lex.getD 0 nulChar = 'r'
                  · rw [if_pos hr]
                    have hpre : lex.take 1 = ['r'] := by
                      rw [take_one_eq lex (getD_lt_length lex 0 (by rw [hr]; decide)), hr]
                    exact kwFinish 1 5 (("eturn").toList) (['r']) lex TOKEN_RETURN (by decide)
                      (by decide) hpre (by decide) (by decide)
                  · rw [if_neg hr]
                    by_cases hs : lex.getD 0 nulChar = 's'
                    · rw [if_pos hs]
                      exact branch_s lex hs
                    · rw [if_neg hs]
                      by_cases ht : lex.getD 0 nulChar = 't'
                      · rw [if_pos ht]
                        have hpre : lex.take 1 = ['t'] := by
                          rw [take_one_eq lex (getD_lt_length lex 0 (by rw [ht]; decide)), ht]
                        exact kwFinish 1 6 (("ypedef").toList) (['t']) lex TOKEN_TYPEDEF
                          (by decide) (by decide) hpre (by decide) (by decide)
                      · rw [if_neg ht]
                        by_cases hu : lex.getD 0 nulChar = 'u'
                        · rw [if_pos hu]
                          exact branch_u lex hu
                        · rw [if_neg hu]
                          by_cases hv : lex.getD 0 nulChar = 'v'
                          · rw [if_pos hv]
                            have hpre : lex.take 1 = ['v'] := by
                              rw [take_one_eq lex (getD_lt_length lex 0 (by rw [hv]; decide)), hv]
                            exact kwFinish 1 3 (("oid").toList) (['v']) lex TOKEN_VOID
                              (by decide) (by decide) hpre (by decide) (by decide)
                          · rw [if_neg hv]
                            by_cases hw : lex.getD 0 nulChar = 'w'
                            · rw [if_pos hw]
                              have hpre : lex.take 1 = ['w'] := by
                                rw [take_one_eq lex
                                  (getD_lt_length lex 0 (by rw [hw]; decide)), hw]
                              exact kwFinish 1 4 (("hile").toList) (['w']) lex TOKEN_WHILE
                                (by decide) (by decide) hpre (by decide) (by decide)
                            · rw [if_neg hw]
                              apply keywordSpec_ident_of_no_word
                              intro hmem
                              rcases (by decide : ∀ w ∈ keywordWords,
                                  w.getD 0 nulChar = 'b' ∨ w.getD 0 nulChar = 'c' ∨
                                  w.getD 0 nulChar = 'd' ∨ w.getD 0 nulChar = 'e' ∨
                                  w.getD 0 nulChar = 'f' ∨ w.getD 0 nulChar = 'g' ∨
                                  w.getD 0 nulChar = 'i' ∨ w.getD 0 nulChar = 'l' ∨
                                  w.getD 0 nulChar = 'r' ∨ w.getD 0 nulChar = 's' ∨
                                  w.getD 0 nulChar = 't' ∨ w.getD 0 nulChar = 'u' ∨
                                  w.getD 0 nulChar = 'v' ∨ w.getD 0 nulChar = 'w') lex hmem with
                                h | h | h | h | h | h | h | h | h | h | h | h | h | h
                              · exact hb h
                              · exact hc h
                              · exact hd h
                              · exact he h
                              · exact hf h
                              · exact hg h
                              · exact hi h
                              · exact hl h
                              · exact hr h
                              · exact hs h
                              · exact ht h
                              · exact hu h
                              · exact hv h
                              · exact hw h

theorem peekS_eq (s : Scanner) : peekS s = (s.src.drop s.current).getD 0 nulChar := by
  unfold peekS charAt
  simp [List.getD_eq_getElem?_getD, List.getElem?_drop]

theorem drop_advance (s : Scanner) :
    (advanceS s).src.drop (advanceS s).current = (s.src.drop s.current).tail := by
  unfold advanceS
  simp [List.tail_drop]

theorem StepOk_refl (s : Scanner) : StepOk s s := ⟨rfl, rfl, Nat.le_refl _⟩

theorem StepOk_trans {a b c : Scanner} (hab : StepOk a b) (hbc : StepOk b c) : StepOk a c :=
  ⟨hab.1.trans hbc.1, hab.2.1.trans hbc.2.1, hbc.2.2.trans hab.2.2⟩

theorem StepOk_advance (s : Scanner) : StepOk (advanceS s) s :=
  ⟨rfl, rfl, Nat.le_succ _⟩

theorem StepOk_matchS (e : Char) (s : Scanner) : StepOk (matchS e s).2 s := by
  unfold matchS
  split_ifs <;> first | exact StepOk_refl s | exact ⟨rfl, rfl, Nat.le_succ _⟩

theorem scanLoopF_stepOk (p : Char → Bool) :
    ∀ (fuel : Nat) (s : Scanner), StepOk (scanLoopF p fuel s) s := by
  intro fuel
  induction fuel with
  | zero => intro s; exact StepOk_refl s
  | succ f ih =>
    intro s
    unfold scanLoopF
    by_cases h : p (peekS s) = true
    · rw [if_pos h]
      exact StepOk_trans (ih (advanceS s)) (StepOk_advance s)
    · rw [if_neg h]
      exact StepOk_refl s

theorem skipCommentF_stepOk :
    ∀ (fuel : Nat) (s : Scanner), StepOk (skipCommentF fuel s) s := by
  intro fuel
  induction fuel with
  | zero => intro s; exact StepOk_refl s
  | succ f ih =>
    intro s
    unfold skipCommentF
    by_cases h : peekS s ≠ '\n' ∧ ¬ (isAtEndS s = true)
    · rw [if_pos h]
      exact StepOk_trans (ih (advanceS s)) (StepOk_advance s)
    · rw [if_neg h]
      exact StepOk_refl s

theorem skipWhitespaceF_stepOk :
    ∀ (fuel : Nat) (s : Scanner), StepOk (skipWhitespaceF fuel s) s := by
  intro fuel
  induction fuel with
  | zero => intro s; exact StepOk_refl s
  | succ f ih =>
    intro s
    simp only [skipWhitespaceF]
    by_cases h1 : peekS s = ' ' ∨ peekS s = '\r' ∨ peekS s = '\t' ∨ peekS s = '\n'
    · rw [if_pos h1]
      exact StepOk_trans (ih (advanceS s)) (StepOk_advance s)
    · rw [if_neg h1]
      by_cases h2 : peekS s = '/'
      · rw [if_pos h2]
        by_cases h3 : peekNextS s = '/'
        · rw [if_pos h3]
          exact StepOk_trans (ih _) (skipCommentF_stepOk _ s)
        · rw [if_neg h3]
          exact StepOk_refl s
      · rw [if_neg h2]
        exact StepOk_refl s

theorem skipWhitespaceS_stepOk (s : Scanner) : StepOk (skipWhitespaceS s) s :=
  skipWhitespaceF_stepOk _ s

theorem peek_ne_nul_lt (s : Scanner) (h : peekS s ≠ nulChar) : s.current < s.src.length :=
  getD_lt_length _ _ h

theorem lt_of_isAtEnd_false (s : Scanner) (h : isAtEndS s = false) :
    s.current < s.src.length := by
  apply getD_lt_length
  simp only [isAtEndS] at h
  exact beq_eq_false_iff_ne.mp h

theorem isAtEnd_of_le (s : Scanner) (h : s.src.length ≤ s.current) : isAtEndS s = true := by
  have hp : peekS s = nulChar := List.getD_eq_default _ _ h
  simp [isAtEndS, hp]

theorem skipCommentF_strict (fuel : Nat) (s : Scanner) (hf : 1 ≤ fuel)
    (h : peekS s = '/') : s.current < (skipCommentF fuel s).current := by
  match fuel, hf with
  | f + 1, _ =>
    unfold skipCommentF
    have hend : isAtEndS s = false := by
      unfold isAtEndS
      rw [h]
      decide
    rw [if_pos ⟨by rw [h]; decide, by simp [hend]⟩]
    have hm := (skipCommentF_stepOk f (advanceS s)).2.2
    exact Nat.lt_of_lt_of_le (Nat.lt_succ_self _) hm

theorem skipWhitespaceF_progress (fuel : Nat) (s : Scanner) :
    skipWhitespaceF fuel s = s ∨ s.current < (skipWhitespaceF fuel s).current := by
  match fuel with
  | 0 => exact Or.inl rfl
  | f + 1 =>
    simp only [skipWhitespaceF]
    by_cases h1 : peekS s = ' ' ∨ peekS s = '\r' ∨ peekS s = '\t' ∨ peekS s = '\n'
    · rw [if_pos h1]
      right
      have hm := (skipWhitespaceF_stepOk f (advanceS s)).2.2
      exact Nat.lt_of_lt_of_le (Nat.lt_succ_self _) hm
    · rw [if_neg h1]
      by_cases h2 : peekS s = '/'
      · rw [if_pos h2]
        by_cases h3 : peekNextS s = '/'
        · rw [if_pos h3]
          right
          have hcur : s.current < s.src.length := peek_ne_nul_lt s (by rw [h2]; decide)
          have hstrict := skipCommentF_strict (s.src.length + 1 - s.current) s (by omega) h2
          have hm := (skipWhitespaceF_stepOk f (skipCommentF (s.src.length + 1 - s.current) s)).2.2
          omega
        · rw [if_neg h3]
          exact Or.inl rfl
      · rw [if_neg h2]
        exact Or.inl rfl

theorem skipWhitespaceS_progress (s : Scanner) :
    skipWhitespaceS s = s ∨ s.current < (skipWhitespaceS s).current :=
  skipWhitespaceF_progress _ s

theorem skipWhitespaceS_atEnd (s : Scanner) (h : isAtEndS s = true) :
    skipWhitespaceS s = s := by
  have hp : peekS s = nulChar := by
    simp only [isAtEndS] at h
    exact beq_iff_eq.mp h
  unfold skipWhitespaceS
  cases hfuel : s.src.length + 1 - s.current with
  | zero => rfl
  | succ f =>
    simp only [skipWhitespaceF]
    rw [if_neg (by rw [hp]; decide), if_neg (by rw [hp]; decide)]

theorem stringF_stepOk :
    ∀ (fuel : Nat) (s : Scanner), StepOk (stringF fuel s).2 s := by
  intro fuel
  induction fuel with
  | zero => intro s; exact StepOk_refl s
  | succ f ih =>
    intro s
    unfold stringF
    by_cases h1 : ¬ (isAtEndS s = true) ∧ peekS s ≠ '"'
    · rw [if_pos h1]
      by_cases h2 : peekS s = '\n'
      · rw [if_pos h2]
        exact StepOk_refl s
      · rw [if_neg h2]
        exact StepOk_trans (ih (advanceS s)) (StepOk_advance s)
    · rw [if_neg h1]
      by_cases h3 : isAtEndS s = true
      · rw [if_pos h3]
        exact StepOk_refl s
      · rw [if_neg h3]
        exact StepOk_advance s

theorem characterLoopF_stepOk :
    ∀ (fuel : Nat) (s : Scanner), StepOk (characterLoopF fuel s).2 s := by
  intro fuel
  induction fuel with
  | zero => intro s; exact StepOk_refl s
  | succ f ih =>
    intro s
    unfold characterLoopF
    by_cases h1 : ¬ (isAtEndS s = true) ∧ peekS s ≠ '\''
    · rw [if_pos h1]
      by_cases h2 : peekS s = '\n'
      · rw [if_pos h2]
        exact StepOk_refl s
      · rw [if_neg h2]
        exact StepOk_trans (ih (advanceS s)) (StepOk_advance s)
    · rw [if_neg h1]
      by_cases h3 : isAtEndS s = true
      · rw [if_pos h3]
        exact StepOk_refl s
      · rw [if_neg h3]
        by_cases h4 : (advanceS s).current - (advanceS s).start - 2 = 1 ∨
            (advanceS s).current - (advanceS s).start - 2 = 0
        · rw [if_pos h4]
          exact StepOk_advance s
        · rw [if_neg h4]
          exact StepOk_advance s

theorem identifierS_stepOk (s : Scanner) : StepOk (identifierS s).2 s :=
  scanLoopF_stepOk _ _ s

theorem numberS_stepOk (s : Scanner) : StepOk (numberS s).2 s := by
  unfold numberS
  by_cases h : peekS (digitLoopW s) = '.' ∧ isDigit (peekNextS (digitLoopW s)) = true
  · rw [if_pos h]
    exact StepOk_trans
      (StepOk_trans (scanLoopF_stepOk _ _ _) (StepOk_advance _))
      (scanLoopF_stepOk _ _ s)
  · rw [if_neg h]
    exact scanLoopF_stepOk _ _ s

theorem stringS_stepOk (s : Scanner) : StepOk (stringS s).2 s :=
  stringF_stepOk _ s

theorem characterS_stepOk (s : Scanner) : StepOk (characterS s).2 s := by
  unfold characterS
  by_cases h : isAtEndS s = true
  · rw [if_pos h]
    exact StepOk_refl s
  · rw [if_neg h]
    exact characterLoopF_stepOk _ s

theorem StepOk_ite (c : Prop) [Decidable c] (a b s : Scanner)
    (ha : StepOk a s) (hb : StepOk b s) : StepOk (if c then a else b) s := by
  by_cases h : c
  · rw [if_pos h]; exact ha
  · rw [if_neg h]; exact hb

set_option maxHeartbeats 2000000 in
theorem scanDispatch_stepOk (sb : Scanner) : StepOk (scanDispatch sb).2 (advanceS sb) := by
  simp only [scanDispatch, apply_ite Prod.snd]
  exact
    StepOk_ite _ _ _ _ (identifierS_stepOk _)
    (StepOk_ite _ _ _ _ (numberS_stepOk _)
    (StepOk_ite _ _ _ _ (StepOk_refl _)
    (StepOk_ite _ _ _ _ (StepOk_refl _)
    (StepOk_ite _ _ _ _ (StepOk_refl _)
    (StepOk_ite _ _ _ _ (StepOk_refl _)
    (StepOk_ite _ _ _ _ (StepOk_refl _)
    (StepOk_ite _ _ _ _ (StepOk_refl _)
    (StepOk_ite _ _ _ _ (StepOk_refl _)
    (StepOk_ite _ _ _ _ (StepOk_refl _)
    (StepOk_ite _ _ _ _
      (StepOk_ite _ _ _ _ (StepOk_matchS _ _)
        (StepOk_ite _ _ _ _ (StepOk_trans (StepOk_matchS _ _) (StepOk_matchS _ _))
          (StepOk_trans (StepOk_matchS _ _) (StepOk_matchS _ _))))
    (StepOk_ite _ _ _ _
      (StepOk_ite _ _ _ _ (StepOk_matchS _ _)
        (StepOk_ite _ _ _ _ (StepOk_trans (StepOk_matchS _ _) (StepOk_matchS _ _))
          (StepOk_ite _ _ _ _
            (StepOk_trans (StepOk_trans (StepOk_matchS _ _) (StepOk_matchS _ _)) (StepOk_matchS _ _))
            (StepOk_trans (StepOk_trans (StepOk_matchS _ _) (StepOk_matchS _ _)) (StepOk_matchS _ _)))))
    (StepOk_ite _ _ _ _ (StepOk_matchS _ _)
    (StepOk_ite _ _ _ _ (StepOk_matchS _ _)
    (StepOk_ite _ _ _ _ (StepOk_matchS _ _)
    (StepOk_ite _ _ _ _
      (StepOk_ite _ _ _ _ (StepOk_matchS _ _)
        (StepOk_ite _ _ _ _ (StepOk_trans (StepOk_matchS _ _) (StepOk_matchS _ _))
          (StepOk_trans (StepOk_matchS _ _) (StepOk_matchS _ _))))
    (StepOk_ite _ _ _ _
      (StepOk_ite _ _ _ _ (StepOk_matchS _ _)
        (StepOk_ite _ _ _ _ (StepOk_trans (StepOk_matchS _ _) (StepOk_matchS _ _))
          (StepOk_trans (StepOk_matchS _ _) (StepOk_matchS _ _))))
    (StepOk_ite _ _ _ _ (StepOk_matchS _ _)
    (StepOk_ite _ _ _ _ (StepOk_matchS _ _)
    (StepOk_ite _ _ _ _ (StepOk_matchS _ _)
    (StepOk_ite _ _ _ _
      (StepOk_ite _ _ _ _ (StepOk_matchS _ _)
        (StepOk_ite _ _ _ _ (StepOk_trans (StepOk_matchS _ _) (StepOk_matchS _ _))
          (StepOk_trans (StepOk_matchS _ _) (StepOk_matchS _ _))))
    (StepOk_ite _ _ _ _
      (StepOk_ite _ _ _ _ (StepOk_matchS _ _)
        (StepOk_ite _ _ _ _ (StepOk_trans (StepOk_matchS _ _) (StepOk_matchS _ _))
          (StepOk_trans (StepOk_matchS _ _) (StepOk_matchS _ _))))
    (StepOk_ite _ _ _ _ (stringS_stepOk _)
    (StepOk_ite _ _ _ _ (characterS_stepOk _)
      (StepOk_refl _))))))))))))))))))))))))

theorem scanTokenS_eof_case (s : Scanner)
    (h : isAtEndS { skipWhitespaceS s with start := (skipWhitespaceS s).current } = true) :
    scanTokenS s =
      (makeTokenS TOKEN_EOF { skipWhitespaceS s with start := (skipWhitespaceS s).current },
       { skipWhitespaceS s with start := (skipWhitespaceS s).current }) := by
  simp only [scanTokenS]
  rw [if_pos h]

theorem scanTokenS_step_case (s : Scanner)
    (h : isAtEndS { skipWhitespaceS s with start := (skipWhitespaceS s).current } = false) :
    StepOk (scanTokenS s).2
      (advanceS { skipWhitespaceS s with start := (skipWhitespaceS s).current }) := by
  have hne : ¬ (isAtEndS { skipWhitespaceS s with start := (skipWhitespaceS s).current } = true) := by
    simp [h]
  simp only [scanTokenS]
  rw [if_neg hne]
  exact scanDispatch_stepOk _

theorem scanTokenS_progress (s : Scanner) (h : isAtEndS s = false) :
    s.current < (scanTokenS s).2.current := by
  by_cases hend : isAtEndS { skipWhitespaceS s with start := (skipWhitespaceS s).current } = true
  · rcases skipWhitespaceS_progress s with heq | hlt
    · exfalso
      rw [heq] at hend
      have h1 : isAtEndS s = true := hend
      rw [h] at h1
      exact Bool.noConfusion h1
    · rw [scanTokenS_eof_case s hend]
      exact hlt
  · have hend' : isAtEndS { skipWhitespaceS s with start := (skipWhitespaceS s).current } = false := by
      simpa using hend
    have hstep := scanTokenS_step_case s hend'
    have hm := (skipWhitespaceS_stepOk s).2.2
    have h2 : (skipWhitespaceS s).current + 1 ≤ (scanTokenS s).2.current := hstep.2.2
    omega

theorem scanTokenS_preserve (s : Scanner) :
    (scanTokenS s).2.src = s.src ∧ (scanTokenS s).2.line = s.line := by
  have hs := skipWhitespaceS_stepOk s
  by_cases hend : isAtEndS { skipWhitespaceS s with start := (skipWhitespaceS s).current } = true
  · rw [scanTokenS_eof_case s hend]
    exact ⟨hs.1, hs.2.1⟩
  · have hend' : isAtEndS { skipWhitespaceS s with start := (skipWhitespaceS s).current } = false := by
      simpa using hend
    have hstep := scanTokenS_step_case s hend'
    exact ⟨hstep.1.trans hs.1, hstep.2.1.trans hs.2.1⟩

theorem scanTokenS_eof_reached : ∀ (k : Nat) (s : Scanner), s.src.length - s.current ≤ k →
    ∃ n, n ≤ s.src.length - s.current ∧ (nthToken s n).type = TOKEN_EOF := by
  intro k
  induction k with
  | zero =>
    intro s hk
    refine ⟨0, Nat.zero_le _, ?_⟩
    have hend : isAtEndS { skipWhitespaceS s with start := (skipWhitespaceS s).current } = true := by
      apply isAtEnd_of_le
      show (skipWhitespaceS s).src.length ≤ (skipWhitespaceS s).current
      have hm := (skipWhitespaceS_stepOk s).2.2
      rw [(skipWhitespaceS_stepOk s).1]
      omega
    show (scanTokenS s).1.type = TOKEN_EOF
    rw [scanTokenS_eof_case s hend]
    rfl
  | succ k ih =>
    intro s hk
    by_cases hend : isAtEndS { skipWhitespaceS s with start := (skipWhitespaceS s).current } = true
    · refine ⟨0, Nat.zero_le _, ?_⟩
      show (scanTokenS s).1.type = TOKEN_EOF
      rw [scanTokenS_eof_case s hend]
      rfl
    · have hend' : isAtEndS { skipWhitespaceS s with start := (skipWhitespaceS s).current } = false := by
        simpa using hend
      have hsA : isAtEndS s = false := by
        by_contra hsA'
        have h1 : isAtEndS s = true := by simpa using hsA'
        have h2 := skipWhitespaceS_atEnd s h1
        rw [h2] at hend'
        have h3 : isAtEndS s = false := hend'
        rw [h1] at h3
        exact Bool.noConfusion h3
      have hprog := scanTokenS_progress s hsA
      have hpre := scanTokenS_preserve s
      have hcur : s.current < s.src.length := lt_of_isAtEnd_false s hsA
      obtain ⟨m, hm, hEOF⟩ := ih (scanTokenS s).2 (by rw [hpre.1]; omega)
      rw [hpre.1] at hm
      exact ⟨m + 1, by omega, hEOF⟩

/-- Claim C9: progress and eventual END_OF_INPUT — a call to `scanToken()` on
a cursor not at the end of the buffer strictly advances the cursor (error
tokens included), and a driver looping on `scanToken()` observes `TOKEN_EOF`
after at most `src.length - current` further calls. -/
theorem scanToken_progress_and_eof (s : Scanner) :
    (isAtEndS s = false → s.current < (scanTokenS s).2.current) ∧
    ∃ n, n ≤ s.src.length - s.current ∧ (nthToken s n).type = TOKEN_EOF :=
  ⟨scanTokenS_progress s, scanTokenS_eof_reached (s.src.length - s.current) s (Nat.le_refl _)⟩

theorem scanToken_progress_and_eof_witness :
    (initScanner (("a").toList)).current <
      (scanTokenS (initScanner (("a").toList))).2.current :=
  (scanToken_progress_and_eof (initScanner (("a").toList))).1 (by decide)

theorem scanSteps_succ (s : Scanner) (n : Nat) :
    scanSteps s (n + 1) = scanSteps (scanTokenS s).2 n := rfl

/-- Claim C10: END_OF_INPUT idempotence — when the cursor is at the end of
the buffer after whitespace skipping, `scanToken()` returns a `TOKEN_EOF`
token with a zero-length span, leaves the cursor unchanged except for
`start := current`, and every further call returns the identical token and
state. -/
theorem scanToken_eof_idempotent (s : Scanner)
    (h : isAtEndS { skipWhitespaceS s with start := (skipWhitespaceS s).current } = true) :
    (scanTokenS s).1.type = TOKEN_EOF ∧
    (scanTokenS s).1.lexeme = [] ∧
    (scanTokenS s).2 = { skipWhitespaceS s with start := (skipWhitespaceS s).current } ∧
    scanTokenS (scanTokenS s).2 = ((scanTokenS s).1, (scanTokenS s).2) ∧
    ∀ n, nthToken s n = (scanTokenS s).1 := by
  have hcase := scanTokenS_eof_case s h
  have hswsb : skipWhitespaceS { skipWhitespaceS s with start := (skipWhitespaceS s).current } =
      { skipWhitespaceS s with start := (skipWhitespaceS s).current } :=
    skipWhitespaceS_atEnd _ h
  have ht : (scanTokenS s).1 =
      makeTokenS TOKEN_EOF { skipWhitespaceS s with start := (skipWhitespaceS s).current } := by
    rw [hcase]
  have hs2 : (scanTokenS s).2 =
      { skipWhitespaceS s with start := (skipWhitespaceS s).current } := by
    rw [hcase]
  have hend2 : isAtEndS { skipWhitespaceS { skipWhitespaceS s with
      start := (skipWhitespaceS s).current } with
      start := (skipWhitespaceS { skipWhitespaceS s with
        start := (skipWhitespaceS s).current }).current } = true := by
    rw [hswsb]
    exact h
  have h4 : scanTokenS (scanTokenS s).2 = ((scanTokenS s).1, (scanTokenS s).2) := by
    rw [hs2, ht, scanTokenS_eof_case _ hend2, hswsb]
  refine ⟨by rw [ht]; rfl, ?_, hs2, h4, ?_⟩
  · rw [ht]
    simp [makeTokenS, sliceS]
  · have hfix : ∀ m, scanSteps (scanTokenS s).2 m = (scanTokenS s).2 := by
      intro m
      induction m with
      | zero => rfl
      | succ m ihm =>
        rw [scanSteps_succ, h4]
        exact ihm
    intro n
    cases n with
    | zero => rfl
    | succ m =>
      simp only [nthToken]
      rw [scanSteps_succ, hfix m, h4]

theorem scanToken_eof_idempotent_witness :
    (scanTokenS (initScanner ([]))).1.type = TOKEN_EOF :=
  (scanToken_eof_idempotent (initScanner ([])) (by decide)).1

theorem ite_nat_eq (c : Prop) [Decidable c] (a b n : Nat) (ha : a = n) (hb : b = n) :
    (if c then a else b) = n := by
  by_cases h : c
  · rw [if_pos h]; exact ha
  · rw [if_neg h]; exact hb

theorem identifierS_line (s : Scanner) : (identifierS s).1.line = s.line :=
  (scanLoopF_stepOk _ _ s).2.1

theorem numberS_line (s : Scanner) : (numberS s).1.line = s.line := by
  unfold numberS
  by_cases h : peekS (digitLoopW s) = '.' ∧ isDigit (peekNextS (digitLoopW s)) = true
  · rw [if_pos h]
    show (digitLoopW (advanceS (digitLoopW s))).line = s.line
    exact
      ((scanLoopF_stepOk isDigit
          ((advanceS (digitLoopW s)).src.length + 1 - (advanceS (digitLoopW s)).current)
          (advanceS (digitLoopW s))).2.1).trans
        ((scanLoopF_stepOk isDigit (s.src.length + 1 - s.current) s).2.1)
  · rw [if_neg h]
    exact (scanLoopF_stepOk isDigit (s.src.length + 1 - s.current) s).2.1

theorem stringF_line : ∀ (fuel : Nat) (s : Scanner), (stringF fuel s).1.line = s.line := by
  intro fuel
  induction fuel with
  | zero => intro s; rfl
  | succ f ih =>
    intro s
    unfold stringF
    by_cases h1 : ¬ (isAtEndS s = true) ∧ peekS s ≠ '"'
    · rw [if_pos h1]
      by_cases h2 : peekS s = '\n'
      · rw [if_pos h2]
        rfl
      · rw [if_neg h2]
        exact ih (advanceS s)
    · rw [if_neg h1]
      by_cases h3 : isAtEndS s = true
      · rw [if_pos h3]
        rfl
      · rw [if_neg h3]
        rfl

theorem characterLoopF_line :
    ∀ (fuel : Nat) (s : Scanner), (characterLoopF fuel s).1.line = s.line := by
  intro fuel
  induction fuel with
  | zero => intro s; rfl
  | succ f ih =>
    intro s
    unfold characterLoopF
    by_cases h1 : ¬ (isAtEndS s = true) ∧ peekS s ≠ '\''
    · rw [if_pos h1]
      by_cases h2 : peekS s = '\n'
      · rw [if_pos h2]
        rfl
      · rw [if_neg h2]
        exact ih (advanceS s)
    · rw [if_neg h1]
      by_cases h3 : isAtEndS s = true
      · rw [if_pos h3]
        rfl
      · rw [if_neg h3]
        by_cases h4 : (advanceS s).current - (advanceS s).start - 2 = 1 ∨
            (advanceS s).current - (advanceS s).start - 2 = 0
        · rw [if_pos h4]
          rfl
        · rw [if_neg h4]
          rfl

theorem stringS_line (s : Scanner) : (stringS s).1.line = s.line :=
  stringF_line _ s

theorem characterS_line (s : Scanner) : (characterS s).1.line = s.line := by
  unfold characterS
  by_cases h : isAtEndS s = true
  · rw [if_pos h]
    rfl
  · rw [if_neg h]
    exact characterLoopF_line _ s

set_option maxHeartbeats 2000000 in
theorem scanDispatch_line (sb : Scanner) : (scanDispatch sb).1.line = sb.line := by
  simp only [scanDispatch, apply_ite (fun r : Token × Scanner => r.1.line)]
  exact
    ite_nat_eq _ _ _ _ (identifierS_line _)
    (ite_nat_eq _ _ _ _ (numberS_line _)
    (ite_nat_eq _ _ _ _ rfl
    (ite_nat_eq _ _ _ _ rfl
    (ite_nat_eq _ _ _ _ rfl
    (ite_nat_eq _ _ _ _ rfl
    (ite_nat_eq _ _ _ _ rfl
    (ite_nat_eq _ _ _ _ rfl
    (ite_nat_eq _ _ _ _ rfl
    (ite_nat_eq _ _ _ _ rfl
    (ite_nat_eq _ _ _ _
      (ite_nat_eq _ _ _ _ ((StepOk_matchS _ _).2.1)
        (ite_nat_eq _ _ _ _ (((StepOk_matchS _ _).2.1).trans ((StepOk_matchS _ _).2.1))
          (((StepOk_matchS _ _).2.1).trans ((StepOk_matchS _ _).2.1))))
    (ite_nat_eq _ _ _ _
      (ite_nat_eq _ _ _ _ ((StepOk_matchS _ _).2.1)
        (ite_nat_eq _ _ _ _ (((StepOk_matchS _ _).2.1).trans ((StepOk_matchS _ _).2.1))
          (ite_nat_eq _ _ _ _
            ((((StepOk_matchS _ _).2.1).trans ((StepOk_matchS _ _).2.1)).trans
              ((StepOk_matchS _ _).2.1))
            ((((StepOk_matchS _ _).2.1).trans ((StepOk_matchS _ _).2.1)).trans
              ((StepOk_matchS _ _).2.1)))))
    (ite_nat_eq _ _ _ _ ((StepOk_matchS _ _).2.1)
    (ite_nat_eq _ _ _ _ ((StepOk_matchS _ _).2.1)
    (ite_nat_eq _ _ _ _ ((StepOk_matchS _ _).2.1)
    (ite_nat_eq _ _ _ _
      (ite_nat_eq _ _ _ _ ((StepOk_matchS _ _).2.1)
        (ite_nat_eq _ _ _ _ (((StepOk_matchS _ _).2.1).trans ((StepOk_matchS _ _).2.1))
          (((StepOk_matchS _ _).2.1).trans ((StepOk_matchS _ _).2.1))))
    (ite_nat_eq _ _ _ _
      (ite_nat_eq _ _ _ _ ((StepOk_matchS _ _).2.1)
        (ite_nat_eq _ _ _ _ (((StepOk_matchS _ _).2.1).trans ((StepOk_matchS _ _).2.1))
          (((StepOk_matchS _ _).2.1).trans ((StepOk_matchS _ _).2.1))))
    (ite_nat_eq _ _ _ _ ((StepOk_matchS _ _).2.1)
    (ite_nat_eq _ _ _ _ ((StepOk_matchS _ _).2.1)
    (ite_nat_eq _ _ _ _ ((StepOk_matchS _ _).2.1)
    (ite_nat_eq _ _ _ _
      (ite_nat_eq _ _ _ _ ((StepOk_matchS _ _).2.1)
        (ite_nat_eq _ _ _ _ (((StepOk_matchS _ _).2.1).trans ((StepOk_matchS _ _).2.1))
          (((StepOk_matchS _ _).2.1).trans ((StepOk_matchS _ _).2.1))))
    (ite_nat_eq _ _ _ _
      (ite_nat_eq _ _ _ _ ((StepOk_matchS _ _).2.1)
        (ite_nat_eq _ _ _ _ (((StepOk_matchS _ _).2.1).trans ((StepOk_matchS _ _).2.1))
          (((StepOk_matchS _ _).2.1).trans ((StepOk_matchS _ _).2.1))))
    (ite_nat_eq _ _ _ _ (stringS_line _)
    (ite_nat_eq _ _ _ _ (characterS_line _)
      rfl)))))))))))))))))))))))

theorem scanTokenS_line (s : Scanner) : (scanTokenS s).1.line = s.line := by
  by_cases hend : isAtEndS { skipWhitespaceS s with start := (skipWhitespaceS s).current } = true
  · rw [scanTokenS_eof_case s hend]
    exact (skipWhitespaceS_stepOk s).2.1
  · have hne : ¬ (isAtEndS { skipWhitespaceS s with start := (skipWhitespaceS s).current } = true) :=
      hend
    simp only [scanTokenS]
    rw [if_neg hne]
    exact (scanDispatch_line _).trans ((skipWhitespaceS_stepOk s).2.1)

/-- Claim C1 (code bug): `scanner.line` is initialized to 1 and never
incremented anywhere in scanner.c — the newline case of `skipWhitespace` only
calls `advance()` — so every produced token carries the line of the scanner
state it started from, and for the input `"\na"` the token following the
newline still reports line 1 rather than 2. -/
theorem scanToken_line_bug :
    (∀ s : Scanner, (scanTokenS s).1.line = s.line) ∧
    (scanTokenS (initScanner (("\na").toList))).1.lexeme = ("a").toList ∧
    (scanTokenS (initScanner (("\na").toList))).1.line = 1 :=
  ⟨scanTokenS_line, by decide, by decide⟩

/-- Claim C2 (code bug): the dispatch switch of `scanToken()` has no case for
`[` or `]` although the token enumeration declares `TOKEN_LEFT_BRACKET` and
`TOKEN_RIGHT_BRACKET` for them; both characters fall through to the
unexpected-character default and come back as ERROR tokens. -/
theorem scanToken_bracket_bug :
    (scanTokenS (initScanner (("[").toList))).1.type = TOKEN_ERROR ∧
    (scanTokenS (initScanner (("[").toList))).1.lexeme = unexpectedCharMsg '[' ∧
    (scanTokenS (initScanner (("]").toList))).1.type = TOKEN_ERROR ∧
    (scanTokenS (initScanner (("]").toList))).1.lexeme = unexpectedCharMsg ']' := by
  decide

/-- Claim C8 (code bug): the non-single-character diagnostic is formatted
with `sprintf` into the 50-byte buffer without any truncation; its fixed
UTF-8 prefix is 19 bytes, so a character literal enclosing 31 characters
makes `sprintf` write 19 + 31 + 1 = 51 bytes — one past the end of the
buffer. -/
theorem charError_overflow_bug :
    (scanTokenS (initScanner ('\'' :: List.replicate 31 'a' ++ ['\'']))).1.type = TOKEN_ERROR ∧
    sprintfBytesWritten
      (scanTokenS (initScanner ('\'' :: List.replicate 31 'a' ++ ['\'']))).1.lexeme = 51 ∧
    messageCapacity <
      sprintfBytesWritten
        (scanTokenS (initScanner ('\'' :: List.replicate 31 'a' ++ ['\'']))).1.lexeme := by
  decide

theorem peek_mk (src : List Char) (st cur line : Nat) :
    peekS ⟨src, st, cur, line⟩ = (src.drop cur).getD 0 nulChar :=
  peekS_eq _

theorem advance_mk (src : List Char) (st cur line : Nat) :
    advanceS ⟨src, st, cur, line⟩ = ⟨src, st, cur + 1, line⟩ := rfl

theorem dropWhile_getD_not (p : Char → Bool) (hp : p nulChar = false) (l : List Char) :
    p ((l.dropWhile p).getD 0 nulChar) = false := by
  induction l with
  | nil => exact hp
  | cons a t ih =>
    cases hpa : p a with
    | true =>
      rw [List.dropWhile_cons, if_pos hpa]
      exact ih
    | false =>
      rw [List.dropWhile_cons, if_neg (by simp [hpa])]
      exact hpa

theorem scanLoopF_reach (p : Char → Bool) :
    ∀ (xs rest : List Char) (fuel : Nat) (src : List Char) (st cur line : Nat),
      src.drop cur = xs ++ rest →
      (∀ c ∈ xs, p c = true) →
      p (rest.getD 0 nulChar) = false →
      xs.length < fuel →
      scanLoopF p fuel ⟨src, st, cur, line⟩ = ⟨src, st, cur + xs.length, line⟩ := by
  intro xs
  induction xs with
  | nil =>
    intro rest fuel src st cur line hrem hall hstop hfuel
    cases fuel with
    | zero => omega
    | succ f =>
      unfold scanLoopF
      rw [if_neg ?hng]
      case hng =>
        rw [peek_mk, hrem]
        simp only [List.nil_append]
        rw [hstop]
        simp
      rfl
  | cons x xs' ih =>
    intro rest fuel src st cur line hrem hall hstop hfuel
    cases fuel with
    | zero => omega
    | succ f =>
      unfold scanLoopF
      rw [if_pos (by rw [peek_mk, hrem]; exact hall x (by simp))]
      have hrem2 : src.drop (cur + 1) = xs' ++ rest := by
        rw [← List.tail_drop, hrem]
        rfl
      have ihx := ih rest f src st (cur + 1) line hrem2
        (fun c hc => hall c (by simp [hc])) hstop (by simpa using Nat.lt_of_succ_lt_succ hfuel)
      have harith : cur + 1 + xs'.length = cur + (xs'.length + 1) := by omega
      rw [harith] at ihx
      exact ihx

theorem scanLoopW_reach (p : Char → Bool) (src : List Char) (st cur line : Nat)
    (xs rest : List Char)
    (hrem : src.drop cur = xs ++ rest)
    (hall : ∀ c ∈ xs, p c = true)
    (hstop : p (rest.getD 0 nulChar) = false) :
    scanLoopF p (src.length + 1 - cur) ⟨src, st, cur, line⟩ =
      ⟨src, st, cur + xs.length, line⟩ := by
  rcases Nat.lt_or_ge src.length cur with hgt | hle
  · have hdrop : src.drop cur = [] := List.drop_of_length_le (by omega)
    rw [hdrop] at hrem
    obtain ⟨hx, -⟩ := List.append_eq_nil.mp hrem.symm
    subst hx
    rw [show src.length + 1 - cur = 0 from by omega]
    rfl
  · apply scanLoopF_reach p xs rest _ src st cur line hrem hall hstop
    have hlen := congrArg List.length hrem
    simp only [List.length_drop, List.length_append] at hlen
    omega

theorem isAlpha_not_special (c : Char) (h : isAlpha c = true) :
    c ≠ ' ' ∧ c ≠ '\r' ∧ c ≠ '\t' ∧ c ≠ '\n' ∧ c ≠ '/' ∧ c ≠ nulChar := by
  refine ⟨?_, ?_, ?_, ?_, ?_, ?_⟩ <;> (rintro rfl; revert h; decide)

theorem isDigit_not_special (c : Char) (h : isDigit c = true) :
    c ≠ ' ' ∧ c ≠ '\r' ∧ c ≠ '\t' ∧ c ≠ '\n' ∧ c ≠ '/' ∧ c ≠ nulChar := by
  refine ⟨?_, ?_, ?_, ?_, ?_, ?_⟩ <;> (rintro rfl; revert h; decide)

theorem isDigit_not_alpha (c : Char) (h : isDigit c = true) : isAlpha c = false := by
  simp only [isDigit, Bool.and_eq_true, decide_eq_true_eq] at h
  obtain ⟨h1, h2⟩ := h
  rw [Bool.eq_false_iff]
  intro hA
  have hA3 : ('a' ≤ c ∧ c ≤ 'z') ∨ ('A' ≤ c ∧ c ≤ 'Z') ∨ c = '_' := by
    simp only [isAlpha, Bool.or_eq_true, Bool.and_eq_true, decide_eq_true_eq, beq_iff_eq] at hA
    tauto
  rcases hA3 with hc1 | hc2 | hc3
  · exact absurd (le_trans hc1.1 h2) (by decide)
  · exact absurd (le_trans hc2.1 h2) (by decide)
  · rw [hc3] at h2
    exact absurd h2 (by decide)

theorem skipWhitespaceS_noop (s : Scanner)
    (hw : peekS s ≠ ' ' ∧ peekS s ≠ '\r' ∧ peekS s ≠ '\t' ∧ peekS s ≠ '\n' ∧ peekS s ≠ '/') :
    skipWhitespaceS s = s := by
  unfold skipWhitespaceS
  cases hf : s.src.length + 1 - s.current with
  | zero => rfl
  | succ f =>
    simp only [skipWhitespaceF]
    rw [if_neg (by push_neg; exact ⟨hw.1, hw.2.1, hw.2.2.1, hw.2.2.2.1⟩),
      if_neg hw.2.2.2.2]

theorem scanTokenS_dispatch (s : Scanner)
    (hw : peekS s ≠ ' ' ∧ peekS s ≠ '\r' ∧ peekS s ≠ '\t' ∧ peekS s ≠ '\n' ∧ peekS s ≠ '/')
    (hne : isAtEndS s = false) :
    scanTokenS s = scanDispatch { s with start := s.current } := by
  have hnoop : skipWhitespaceS s = s := skipWhitespaceS_noop s hw
  have hend : isAtEndS { s with start := s.current } = false := hne
  simp only [scanTokenS]
  rw [hnoop, if_neg (by simp [hend])]

theorem scanDispatch_alpha (sb : Scanner) (hc : isAlpha (peekS sb) = true) :
    scanDispatch sb = identifierS (advanceS sb) := by
  simp only [scanDispatch]
  rw [if_pos hc]

theorem scanDispatch_digit (sb : Scanner) (h1 : isAlpha (peekS sb) = false)
    (h2 : isDigit (peekS sb) = true) :
    scanDispatch sb = numberS (advanceS sb) := by
  simp only [scanDispatch]
  rw [if_neg (by simp [h1]), if_pos h2]

theorem scanDispatch_dot (sb : Scanner) (hc : peekS sb = '.') :
    scanDispatch sb = (makeTokenS TOKEN_DOT (advanceS sb), advanceS sb) := by
  have hA : isAlpha '.' = false := by decide
  have hD : isDigit '.' = false := by decide
  simp [scanDispatch, hc, hA, hD]

theorem scanDispatch_quote (sb : Scanner) (hc : peekS sb = '"') :
    scanDispatch sb = stringS (advanceS sb) := by
  have hA : isAlpha '"' = false := by decide
  have hD : isDigit '"' = false := by decide
  simp [scanDispatch, hc, hA, hD]

theorem scanDispatch_squote (sb : Scanner) (hc : peekS sb = '\'') :
    scanDispatch sb = characterS (advanceS sb) := by
  have hA : isAlpha '\'' = false := by decide
  have hD : isDigit '\'' = false := by decide
  simp [scanDispatch, hc, hA, hD]

theorem identifierS_reach (src : List Char) (st cur line : Nat) (xs rest : List Char)
    (hrem : src.drop cur = xs ++ rest)
    (hxs : ∀ c ∈ xs, (isAlpha c || isDigit c) = true)
    (hstop : (isAlpha (rest.getD 0 nulChar) || isDigit (rest.getD 0 nulChar)) = false) :
    identifierS ⟨src, st, cur, line⟩ =
      (makeTokenS (identifierTypeAux (sliceS src st (cur + xs.length)))
        ⟨src, st, cur + xs.length, line⟩,
       ⟨src, st, cur + xs.length, line⟩) := by
  have hIL : identLoopW ⟨src, st, cur, line⟩ = ⟨src, st, cur + xs.length, line⟩ :=
    scanLoopW_reach _ src st cur line xs rest hrem hxs hstop
  unfold identifierS
  rw [hIL]
  rfl

/-- Claim C3: keyword classification of a maximal identifier lexeme equals
exact string equality against the 27 reserved words — `scanToken()` tags the
lexeme with `keywordSpec lex` (the spec's exact-match classifier), which is
`TOKEN_IDENTIFIER` exactly when the lexeme is not one of the reserved
words. -/
theorem scanToken_keyword_classification (lex rest : List Char)
    (h0 : lex ≠ [])
    (h1 : isAlpha (lex.getD 0 nulChar) = true)
    (h2 : ∀ c ∈ lex, (isAlpha c || isDigit c) = true)
    (h3 : (isAlpha (rest.getD 0 nulChar) || isDigit (rest.getD 0 nulChar)) = false) :
    (scanTokenS (initScanner (lex ++ rest))).1.type = keywordSpec lex ∧
    (scanTokenS (initScanner (lex ++ rest))).1.lexeme = lex ∧
    (keywordSpec lex = TOKEN_IDENTIFIER ↔ lex ∉ keywordWords) := by
  obtain ⟨l0, lex', rfl⟩ := List.exists_cons_of_ne_nil h0
  have hL0 : isAlpha l0 = true := h1
  have hns := isAlpha_not_special l0 hL0
  have hpeek : peekS (initScanner ((l0 :: lex') ++ rest)) = l0 := rfl
  have hd := scanTokenS_dispatch (initScanner ((l0 :: lex') ++ rest))
    ⟨by rw [hpeek]; exact hns.1, by rw [hpeek]; exact hns.2.1, by rw [hpeek]; exact hns.2.2.1,
     by rw [hpeek]; exact hns.2.2.2.1, by rw [hpeek]; exact hns.2.2.2.2.1⟩
    (by show (peekS _ == nulChar) = false
        rw [hpeek]
        exact beq_eq_false_iff_ne.mpr hns.2.2.2.2.2)
  rw [hd, scanDispatch_alpha _ (by exact hL0)]
  have hconv : advanceS { initScanner ((l0 :: lex') ++ rest) with
      start := (initScanner ((l0 :: lex') ++ rest)).current } =
      (⟨(l0 :: lex') ++ rest, 0, 1, 1⟩ : Scanner) := rfl
  rw [hconv, identifierS_reach ((l0 :: lex') ++ rest) 0 1 1 lex' rest rfl
    (fun c hc => h2 c (by simp [hc])) h3]
  have hslice : sliceS ((l0 :: lex') ++ rest) 0 (1 + lex'.length) = l0 :: lex' := by
    unfold sliceS
    rw [List.drop_zero, Nat.sub_zero]
    exact List.take_left' (by simp [Nat.add_comm])
  refine ⟨?_, ?_, keywordSpec_eq_ident_iff _⟩
  · show identifierTypeAux (sliceS ((l0 :: lex') ++ rest) 0 (1 + lex'.length)) =
      keywordSpec (l0 :: lex')
    rw [hslice, identifierTypeAux_eq_keywordSpec]
  · show sliceS ((l0 :: lex') ++ rest) 0 (1 + lex'.length) = l0 :: lex'
    exact hslice

theorem scanToken_keyword_classification_witness :
    (scanTokenS (initScanner (("breaking").toList ++ ([] : List Char)))).1.type =
      TOKEN_IDENTIFIER := by
  rw [(scanToken_keyword_classification (("breaking").toList) ([]) (by decide) (by decide)
    (by decide) (by decide)).1]
  decide

theorem characterLoopF_step (fuel : Nat) (s : Scanner)
    (h1 : isAtEndS s = false) (h2 : peekS s ≠ '\'') (h3 : peekS s ≠ '\n') :
    characterLoopF (fuel + 1) s = characterLoopF fuel (advanceS s) := by
  conv_lhs => unfold characterLoopF
  rw [if_pos ⟨by simp [h1], h2⟩, if_neg h3]

theorem characterLoopF_reach :
    ∀ (enclosed rest : List Char) (fuel : Nat) (src : List Char) (st cur line : Nat),
      src.drop cur = enclosed ++ '\'' :: rest →
      (∀ c ∈ enclosed, c ≠ '\'' ∧ c ≠ '\n' ∧ c ≠ nulChar) →
      enclosed.length < fuel →
      characterLoopF fuel ⟨src, st, cur, line⟩ =
        characterLoopF 1 ⟨src, st, cur + enclosed.length, line⟩ := by
  intro enclosed
  induction enclosed with
  | nil =>
    intro rest fuel src st cur line hrem hc hfuel
    cases fuel with
    | zero => omega
    | succ f =>
      have hpk : peekS ⟨src, st, cur, line⟩ = '\'' := by rw [peek_mk, hrem]; rfl
      show characterLoopF (f + 1) ⟨src, st, cur, line⟩ = characterLoopF 1 ⟨src, st, cur, line⟩
      have hng : ¬ (¬ (isAtEndS (⟨src, st, cur, line⟩ : Scanner) = true) ∧
          peekS ⟨src, st, cur, line⟩ ≠ '\'') := by
        rintro ⟨-, hq⟩
        exact hq hpk
      unfold characterLoopF
      rw [if_neg hng, if_neg hng]
  | cons c cs ih =>
    intro rest fuel src st cur line hrem hc hfuel
    cases fuel with
    | zero => omega
    | succ f =>
      have hch := hc c (by simp)
      have hpk : peekS ⟨src, st, cur, line⟩ = c := by rw [peek_mk, hrem]; rfl
      have hend : isAtEndS ⟨src, st, cur, line⟩ = false := by
        show (peekS _ == nulChar) = false
        rw [hpk]
        exact beq_eq_false_iff_ne.mpr hch.2.2
      rw [characterLoopF_step f ⟨src, st, cur, line⟩ hend
        (by rw [hpk]; exact hch.1) (by rw [hpk]; exact hch.2.1), advance_mk]
      have ihx := ih rest f src st (cur + 1) line
        (by rw [← List.tail_drop, hrem]; rfl)
        (fun d hd => hc d (by simp [hd]))
        (by simpa using Nat.lt_of_succ_lt_succ hfuel)
      rw [ihx, show cur + 1 + cs.length = cur + (cs.length + 1) from by omega]
      rfl

theorem characterLoopF_exit (src : List Char) (st cur line : Nat) (rest : List Char)
    (hq : src.drop cur = '\'' :: rest) :
    characterLoopF 1 ⟨src, st, cur, line⟩ =
      (if cur + 1 - st - 2 = 1 ∨ cur + 1 - st - 2 = 0 then
        (makeTokenS TOKEN_CHARACTER ⟨src, st, cur + 1, line⟩, ⟨src, st, cur + 1, line⟩)
       else
        (errorTokenS (chNonSingleMsgHead ++
          sliceS src (st + 1) (st + 1 + (cur + 1 - st - 2))) ⟨src, st, cur + 1, line⟩,
         ⟨src, st, cur + 1, line⟩)) := by
  have hpk : peekS ⟨src, st, cur, line⟩ = '\'' := by rw [peek_mk, hq]; rfl
  have hend : isAtEndS ⟨src, st, cur, line⟩ = false := by
    show (peekS _ == nulChar) = false
    rw [hpk]
    decide
  unfold characterLoopF
  rw [if_neg (by rintro ⟨-, hx⟩; exact hx hpk), if_neg (by simp [hend])]
  rfl

theorem characterS_reach (src : List Char) (st cur line : Nat) (enclosed rest : List Char)
    (hrem : src.drop cur = enclosed ++ '\'' :: rest)
    (hc : ∀ c ∈ enclosed, c ≠ '\'' ∧ c ≠ '\n' ∧ c ≠ nulChar)
    (hcur : cur ≤ src.length) :
    characterS ⟨src, st, cur, line⟩ =
      characterLoopF 1 ⟨src, st, cur + enclosed.length, line⟩ := by
  have hfe : isAtEndS ⟨src, st, cur, line⟩ = false := by
    show (peekS _ == nulChar) = false
    rw [peek_mk, hrem]
    cases enclosed with
    | nil =>
      show (('\'' : Char) == nulChar) = false
      decide
    | cons e es =>
      show (e == nulChar) = false
      exact beq_eq_false_iff_ne.mpr (hc e (by simp)).2.2
  unfold characterS
  rw [if_neg (by simp [hfe])]
  have hlen := congrArg List.length hrem
  simp only [List.length_drop, List.length_append, List.length_cons] at hlen
  exact characterLoopF_reach enclosed rest _ src st cur line hrem hc
    (by show enclosed.length < src.length + 1 - cur; omega)

/-- Claim C4: character-literal length rule — with a closing quote on the
same line, an enclosed length of 0 or 1 yields a `TOKEN_CHARACTER` spanning
both delimiters, and an enclosed length of 2 or more yields a `TOKEN_ERROR`
whose message embeds the enclosed text after the non-single-character
prefix. -/
theorem scanToken_character_length_rule (enclosed rest : List Char)
    (h : ∀ c ∈ enclosed, c ≠ '\'' ∧ c ≠ '\n' ∧ c ≠ nulChar) :
    (enclosed.length ≤ 1 →
      (scanTokenS (initScanner ('\'' :: enclosed ++ '\'' :: rest))).1.type = TOKEN_CHARACTER ∧
      (scanTokenS (initScanner ('\'' :: enclosed ++ '\'' :: rest))).1.lexeme =
        '\'' :: enclosed ++ ['\'']) ∧
    (2 ≤ enclosed.length →
      (scanTokenS (initScanner ('\'' :: enclosed ++ '\'' :: rest))).1.type = TOKEN_ERROR ∧
      (scanTokenS (initScanner ('\'' :: enclosed ++ '\'' :: rest))).1.lexeme =
        chNonSingleMsgHead ++ enclosed) := by
  have hd := scanTokenS_dispatch (initScanner ('\'' :: enclosed ++ '\'' :: rest))
    (by refine ⟨?_, ?_, ?_, ?_, ?_⟩ <;> (show ('\'' : Char) ≠ _; decide))
    (by show (('\'' : Char) == nulChar) = false; decide)
  rw [hd, scanDispatch_squote _ (by rfl)]
  have hconv : advanceS { initScanner ('\'' :: enclosed ++ '\'' :: rest) with
      start := (initScanner ('\'' :: enclosed ++ '\'' :: rest)).current } =
      (⟨'\'' :: enclosed ++ '\'' :: rest, 0, 1, 1⟩ : Scanner) := rfl
  rw [hconv,
    characterS_reach ('\'' :: enclosed ++ '\'' :: rest) 0 1 1 enclosed rest rfl h (by simp),
    characterLoopF_exit ('\'' :: enclosed ++ '\'' :: rest) 0 (1 + enclosed.length) 1 rest ?hq]
  case hq =>
    show List.drop (1 + enclosed.length) ('\'' :: (enclosed ++ '\'' :: rest)) = '\'' :: rest
    rw [Nat.add_comm 1 enclosed.length, List.drop_succ_cons]
    exact List.drop_left' rfl
  rw [show (1 : Nat) + enclosed.length + 1 - 0 - 2 = enclosed.length from by omega]
  constructor
  · intro hle
    rw [if_pos (by omega)]
    refine ⟨rfl, ?_⟩
    have hsl : sliceS ('\'' :: enclosed ++ '\'' :: rest) 0 (1 + enclosed.length + 1) =
        '\'' :: enclosed ++ ['\''] := by
      rw [show '\'' :: enclosed ++ '\'' :: rest = ('\'' :: enclosed ++ ['\'']) ++ rest from
        by simp]
      unfold sliceS
      rw [List.drop_zero, Nat.sub_zero]
      exact List.take_left' (by simp [List.length_append]; omega)
    exact hsl
  · intro hge
    rw [if_neg (by omega)]
    refine ⟨rfl, ?_⟩
    show chNonSingleMsgHead ++
        sliceS ('\'' :: enclosed ++ '\'' :: rest) (0 + 1) (0 + 1 + enclosed.length) =
      chNonSingleMsgHead ++ enclosed
    congr 1
    unfold sliceS
    rw [show (0 : Nat) + 1 + enclosed.length - (0 + 1) = enclosed.length from by omega]
    exact List.take_left' rfl

theorem scanToken_character_length_rule_witness :
    (scanTokenS (initScanner ('\'' :: ("ab").toList ++ '\'' :: []))).1.type = TOKEN_ERROR ∧
    (scanTokenS (initScanner ('\'' :: ("ab").toList ++ '\'' :: []))).1.lexeme =
      chNonSingleMsgHead ++ ("ab").toList :=
  (scanToken_character_length_rule (("ab").toList) [] (by decide)).2 (by decide)

theorem getD_zero_drop (src : List Char) (n : Nat) :
    (src.drop n).getD 0 nulChar = src.getD n nulChar := by
  simp [List.getD_eq_getElem?_getD, List.getElem?_drop]

theorem stringF_step (fuel : Nat) (s : Scanner)
    (h1 : isAtEndS s = false) (h2 : peekS s ≠ '"') (h3 : peekS s ≠ '\n') :
    stringF (fuel + 1) s = stringF fuel (advanceS s) := by
  conv_lhs => unfold stringF
  rw [if_pos ⟨by simp [h1], h2⟩, if_neg h3]

theorem stringF_unterm :
    ∀ (body : List Char) (fuel : Nat) (src : List Char) (st cur line : Nat),
      src.drop cur = body →
      (∀ c ∈ body, c ≠ '"' ∧ c ≠ '\n' ∧ c ≠ nulChar) →
      body.length < fuel →
      stringF fuel ⟨src, st, cur, line⟩ =
        (errorTokenS strUntermMsg ⟨src, st, cur + body.length, line⟩,
         ⟨src, st, cur + body.length, line⟩) := by
  intro body
  induction body with
  | nil =>
    intro fuel src st cur line hrem hb hfuel
    cases fuel with
    | zero => omega
    | succ f =>
      have hpk : peekS ⟨src, st, cur, line⟩ = nulChar := by rw [peek_mk, hrem]; rfl
      have hend : isAtEndS ⟨src, st, cur, line⟩ = true := by
        show (peekS _ == nulChar) = true
        rw [hpk]
        decide
      conv_lhs => unfold stringF
      rw [if_neg (by rintro ⟨hx, -⟩; exact hx hend), if_pos hend]
      rfl
  | cons c cs ih =>
    intro fuel src st cur line hrem hb hfuel
    cases fuel with
    | zero => omega
    | succ f =>
      have hcc := hb c (by simp)
      have hpk : peekS ⟨src, st, cur, line⟩ = c := by rw [peek_mk, hrem]; rfl
      have hend : isAtEndS ⟨src, st, cur, line⟩ = false := by
        show (peekS _ == nulChar) = false
        rw [hpk]
        exact beq_eq_false_iff_ne.mpr hcc.2.2
      rw [stringF_step f ⟨src, st, cur, line⟩ hend
        (by rw [hpk]; exact hcc.1) (by rw [hpk]; exact hcc.2.1), advance_mk]
      have ihx := ih f src st (cur + 1) line
        (by rw [← List.tail_drop, hrem]; rfl)
        (fun d hd => hb d (by simp [hd]))
        (by simpa using Nat.lt_of_succ_lt_succ hfuel)
      rw [ihx, show cur + 1 + cs.length = cur + (cs.length + 1) from by omega]
      rfl

/-- Claim C7: string-literal contract — `"hello"` produces a single STRING
token spanning the full 7 characters including both quotes, and a string with
no closing quote before end of buffer produces an ERROR token carrying the
unterminated-string-literal message. -/
theorem scanToken_string_contract :
    ((scanTokenS (initScanner (("\"hello\"").toList))).1 =
      { type := TOKEN_STRING, lexeme := ("\"hello\"").toList, line := 1 } ∧
     Token.length (scanTokenS (initScanner (("\"hello\"").toList))).1 = 7) ∧
    (∀ body : List Char, (∀ c ∈ body, c ≠ '"' ∧ c ≠ '\n' ∧ c ≠ nulChar) →
      (scanTokenS (initScanner ('"' :: body))).1.type = TOKEN_ERROR ∧
      (scanTokenS (initScanner ('"' :: body))).1.lexeme = strUntermMsg) := by
  constructor
  · exact ⟨by decide, by decide⟩
  · intro body hb
    have hd := scanTokenS_dispatch (initScanner ('"' :: body))
      (by refine ⟨?_, ?_, ?_, ?_, ?_⟩ <;> (show ('"' : Char) ≠ _; decide))
      (by show (('"' : Char) == nulChar) = false; decide)
    rw [hd, scanDispatch_quote _ (by rfl)]
    have hconv : advanceS { initScanner ('"' :: body) with
        start := (initScanner ('"' :: body)).current } =
        (⟨'"' :: body, 0, 1, 1⟩ : Scanner) := rfl
    rw [hconv]
    have hst : stringS ⟨'"' :: body, 0, 1, 1⟩ =
        (errorTokenS strUntermMsg ⟨'"' :: body, 0, 1 + body.length, 1⟩,
         ⟨'"' :: body, 0, 1 + body.length, 1⟩) := by
      unfold stringS
      exact stringF_unterm body _ ('"' :: body) 0 1 1 rfl hb
        (by show body.length < ('"' :: body).length + 1 - 1
            simp only [List.length_cons]
            omega)
    rw [hst]
    exact ⟨rfl, rfl⟩

theorem scanToken_string_contract_witness :
    (scanTokenS (initScanner ('"' :: ("hello").toList))).1.type = TOKEN_ERROR :=
  (scanToken_string_contract.2 (("hello").toList) (by decide)).1

/-- Claim C6: greedy one-character lookahead — `match` consumes exactly one
character and only when it equals the expected character, and the input
`"<<="` scans as LESS_LESS (`<<`) then EQUAL (`=`), never a combined
three-character token. -/
theorem scanToken_operator_lookahead :
    (∀ (e : Char) (s : Scanner),
      matchS e s = if isAtEndS s = false ∧ peekS s = e
        then (true, { s with current := s.current + 1 }) else (false, s)) ∧
    nthToken (initScanner (("<<=").toList)) 0 =
      { type := TOKEN_LESS_LESS, lexeme := ("<<").toList, line := 1 } ∧
    nthToken (initScanner (("<<=").toList)) 1 =
      { type := TOKEN_EQUAL, lexeme := ("=").toList, line := 1 } ∧
    (nthToken (initScanner (("<<=").toList)) 2).type = TOKEN_EOF := by
  refine ⟨?_, by decide, by decide, by decide⟩
  intro e s
  unfold matchS
  by_cases h1 : isAtEndS s = true
  · rw [if_pos h1, if_neg (by simp [h1])]
  · rw [if_neg h1]
    by_cases h2 : peekS s ≠ e
    · rw [if_pos h2, if_neg (by rintro ⟨-, he⟩; exact h2 he)]
    · rw [if_neg h2, if_pos ⟨by simpa using h1, by simpa using h2⟩]

theorem numberS_spec (src : List Char) (st cur line : Nat) (ds rest : List Char)
    (hrem : src.drop cur = ds ++ '.' :: rest)
    (hds : ∀ c ∈ ds, isDigit c = true) :
    numberS ⟨src, st, cur, line⟩ =
      if isDigit (rest.getD 0 nulChar) = true then
        (makeTokenS TOKEN_NUMBER
          ⟨src, st, cur + ds.length + 1 + (rest.takeWhile isDigit).length, line⟩,
         ⟨src, st, cur + ds.length + 1 + (rest.takeWhile isDigit).length, line⟩)
      else
        (makeTokenS TOKEN_NUMBER ⟨src, st, cur + ds.length, line⟩,
         ⟨src, st, cur + ds.length, line⟩) := by
  have hloop1 : digitLoopW ⟨src, st, cur, line⟩ = ⟨src, st, cur + ds.length, line⟩ :=
    scanLoopW_reach isDigit src st cur line ds ('.' :: rest) hrem hds
      (by show isDigit ('.') = false; decide)
  have hdrop2 : src.drop (cur + ds.length) = '.' :: rest := by
    have h1 := List.drop_drop ds.length cur src
    rw [hrem, List.drop_left' (rfl : ds.length = ds.length)] at h1
    exact h1.symm
  have hdroptail : src.drop (cur + ds.length + 1) = rest := by
    rw [← List.tail_drop, hdrop2]
    rfl
  have hpk : peekS ⟨src, st, cur + ds.length, line⟩ = '.' := by rw [peek_mk, hdrop2]; rfl
  have hend : isAtEndS ⟨src, st, cur + ds.length, line⟩ = false := by
    show (peekS _ == nulChar) = false
    rw [hpk]
    decide
  have hnext : peekNextS ⟨src, st, cur + ds.length, line⟩ = rest.getD 0 nulChar := by
    unfold peekNextS
    rw [if_neg (by simp [hend])]
    show charAt src (cur + ds.length + 1) = _
    unfold charAt
    rw [← getD_zero_drop src (cur + ds.length + 1), hdroptail]
  by_cases hdig : isDigit (rest.getD 0 nulChar) = true
  · rw [if_pos hdig]
    unfold numberS
    rw [hloop1, if_pos ⟨hpk, by rw [hnext]; exact hdig⟩, advance_mk]
    have htw : digitLoopW ⟨src, st, cur + ds.length + 1, line⟩ =
        ⟨src, st, cur + ds.length + 1 + (rest.takeWhile isDigit).length, line⟩ :=
      scanLoopW_reach isDigit src st (cur + ds.length + 1) line (rest.takeWhile isDigit)
        (rest.dropWhile isDigit)
        (by rw [hdroptail]; exact (List.takeWhile_append_dropWhile isDigit rest).symm)
        (fun c hc => List.mem_takeWhile_imp hc)
        (dropWhile_getD_not isDigit (by decide) rest)
    rw [htw]
  · rw [if_neg hdig]
    unfold numberS
    rw [hloop1, if_neg (by rintro ⟨-, hx⟩; rw [hnext] at hx; exact hdig hx)]

/-- Claim C5: number trailing-dot policy — the number handler consumes the
`.` only when the character after it is a digit; `"123."` therefore scans as
NUMBER `123` followed by a separate DOT token, while a digit after the dot
produces one NUMBER token spanning the integer part, the dot and the maximal
fractional digit run. -/
theorem scanToken_number_trailing_dot (ds rest : List Char)
    (h0 : ds ≠ []) (hds : ∀ c ∈ ds, isDigit c = true) :
    (isDigit (rest.getD 0 nulChar) = false →
      (scanTokenS (initScanner (ds ++ '.' :: rest))).1 =
        { type := TOKEN_NUMBER, lexeme := ds, line := 1 } ∧
      (scanTokenS (scanTokenS (initScanner (ds ++ '.' :: rest))).2).1 =
        { type := TOKEN_DOT, lexeme := ['.'], line := 1 }) ∧
    (isDigit (rest.getD 0 nulChar) = true →
      (scanTokenS (initScanner (ds ++ '.' :: rest))).1 =
        { type := TOKEN_NUMBER, lexeme := ds ++ '.' :: rest.takeWhile isDigit, line := 1 }) := by
  obtain ⟨d0, ds', rfl⟩ := List.exists_cons_of_ne_nil h0
  have hd0 : isDigit d0 = true := hds d0 (by simp)
  have hns := isDigit_not_special d0 hd0
  have hpeek : peekS (initScanner ((d0 :: ds') ++ '.' :: rest)) = d0 := rfl
  have hd := scanTokenS_dispatch (initScanner ((d0 :: ds') ++ '.' :: rest))
    ⟨by rw [hpeek]; exact hns.1, by rw [hpeek]; exact hns.2.1, by rw [hpeek]; exact hns.2.2.1,
     by rw [hpeek]; exact hns.2.2.2.1, by rw [hpeek]; exact hns.2.2.2.2.1⟩
    (by show (peekS _ == nulChar) = false
        rw [hpeek]
        exact beq_eq_false_iff_ne.mpr hns.2.2.2.2.2)
  rw [hd, scanDispatch_digit _ (by exact isDigit_not_alpha d0 hd0) (by exact hd0)]
  have hconv : advanceS { initScanner ((d0 :: ds') ++ '.' :: rest) with
      start := (initScanner ((d0 :: ds') ++ '.' :: rest)).current } =
      (⟨(d0 :: ds') ++ '.' :: rest, 0, 1, 1⟩ : Scanner) := rfl
  rw [hconv, numberS_spec ((d0 :: ds') ++ '.' :: rest) 0 1 1 ds' rest rfl
    (fun c hc => hds c (by simp [hc]))]
  have hdrop2 : ((d0 :: ds') ++ '.' :: rest).drop (1 + ds'.length) = '.' :: rest := by
    show ((d0 :: (ds' ++ '.' :: rest))).drop (1 + ds'.length) = '.' :: rest
    rw [show (1 : Nat) + ds'.length = ds'.length + 1 from by omega, List.drop_succ_cons]
    exact List.drop_left' rfl
  constructor
  · intro hdig
    rw [if_neg (by rw [hdig]; decide)]
    have hsl1 : sliceS ((d0 :: ds') ++ '.' :: rest) 0 (1 + ds'.length) = d0 :: ds' := by
      unfold sliceS
      rw [List.drop_zero, Nat.sub_zero]
      exact List.take_left' (by simp [Nat.add_comm])
    constructor
    · calc makeTokenS TOKEN_NUMBER ⟨(d0 :: ds') ++ '.' :: rest, 0, 1 + ds'.length, 1⟩
          = { type := TOKEN_NUMBER,
              lexeme := sliceS ((d0 :: ds') ++ '.' :: rest) 0 (1 + ds'.length), line := 1 } := rfl
        _ = { type := TOKEN_NUMBER, lexeme := d0 :: ds', line := 1 } := by rw [hsl1]
    · show (scanTokenS (⟨(d0 :: ds') ++ '.' :: rest, 0, 1 + ds'.length, 1⟩ : Scanner)).1 =
        { type := TOKEN_DOT, lexeme := ['.'], line := 1 }
      have hpk2 : peekS (⟨(d0 :: ds') ++ '.' :: rest, 0, 1 + ds'.length, 1⟩ : Scanner) = '.' := by
        rw [peek_mk, hdrop2]
        rfl
      have hd2 := scanTokenS_dispatch
        (⟨(d0 :: ds') ++ '.' :: rest, 0, 1 + ds'.length, 1⟩ : Scanner)
        (by refine ⟨?_, ?_, ?_, ?_, ?_⟩ <;> (rw [hpk2]; decide))
        (by show (peekS _ == nulChar) = false
            rw [hpk2]
            decide)
      rw [hd2, scanDispatch_dot _ (by exact hpk2)]
      have hsl2 : sliceS ((d0 :: ds') ++ '.' :: rest) (1 + ds'.length) (1 + ds'.length + 1) =
          ['.'] := by
        unfold sliceS
        rw [hdrop2, show (1 : Nat) + ds'.length + 1 - (1 + ds'.length) = 1 from by omega]
        rfl
      calc (makeTokenS TOKEN_DOT
              (advanceS { (⟨(d0 :: ds') ++ '.' :: rest, 0, 1 + ds'.length, 1⟩ : Scanner) with
                start := (⟨(d0 :: ds') ++ '.' :: rest, 0, 1 + ds'.length, 1⟩ : Scanner).current }),
            advanceS { (⟨(d0 :: ds') ++ '.' :: rest, 0, 1 + ds'.length, 1⟩ : Scanner) with
              start := (⟨(d0 :: ds') ++ '.' :: rest, 0, 1 + ds'.length, 1⟩ : Scanner).current }).1
          = { type := TOKEN_DOT,
              lexeme := sliceS ((d0 :: ds') ++ '.' :: rest) (1 + ds'.length) (1 + ds'.length + 1),
              line := 1 } := rfl
        _ = { type := TOKEN_DOT, lexeme := ['.'], line := 1 } := by rw [hsl2]
  · intro hdig
    rw [if_pos hdig]
    have hsl3 : sliceS ((d0 :: ds') ++ '.' :: rest) 0
        (1 + ds'.length + 1 + (rest.takeWhile isDigit).length) =
        (d0 :: ds') ++ '.' :: rest.takeWhile isDigit := by
      unfold sliceS
      rw [List.drop_zero, Nat.sub_zero]
      conv_lhs =>
        rw [show (d0 :: ds') ++ '.' :: rest =
          ((d0 :: ds') ++ '.' :: rest.takeWhile isDigit) ++ rest.dropWhile isDigit from by simp]
      exact List.take_left' (by simp [List.length_append]; omega)
    calc makeTokenS TOKEN_NUMBER
          ⟨(d0 :: ds') ++ '.' :: rest, 0, 1 + ds'.length + 1 + (rest.takeWhile isDigit).length, 1⟩
        = { type := TOKEN_NUMBER,
            lexeme := sliceS ((d0 :: ds') ++ '.' :: rest) 0
              (1 + ds'.length + 1 + (rest.takeWhile isDigit).length), line := 1 } := rfl
      _ = { type := TOKEN_NUMBER, lexeme := (d0 :: ds') ++ '.' :: rest.takeWhile isDigit,
            line := 1 } := by rw [hsl3]

theorem scanToken_number_trailing_dot_witness :
    (scanTokenS (initScanner (("123").toList ++ '.' :: []))).1 =
      { type := TOKEN_NUMBER, lexeme := ("123").toList, line := 1 } ∧
    (scanTokenS (scanTokenS (initScanner (("123").toList ++ '.' :: []))).2).1 =
      { type := TOKEN_DOT, lexeme := ['.'], line := 1 } ∧
    (scanTokenS (initScanner (("3").toList ++ '.' :: ("14").toList))).1 =
      { type := TOKEN_NUMBER, lexeme := ("3").toList ++ '.' :: (("14").toList).takeWhile isDigit,
        line := 1 } := by
  refine ⟨?_, ?_, ?_⟩
  · exact ((scanToken_number_trailing_dot (("123").toList) [] (by decide) (by decide)).1
      (by decide)).1
  · exact ((scanToken_number_trailing_dot (("123").toList) [] (by decide) (by decide)).1
      (by decide)).2
  · exact (scanToken_number_trailing_dot (("3").toList) (("14").toList) (by decide)
      (by decide)).2 (by decide)
